import Mathlib

/-!
# Relayer of a two-chain exchange

A shallow embedding of `internal/relayer/main.go`: the event handlers of the
exchange and bridge subscriptions, the order matcher (`tryOrderMatching`,
`submitMatchedOrder`) and the withdrawal status handlers.

Conventions of the embedding.

* A 32-byte hash and a 20-byte address are numbers below `2 ^ 256` and
  `2 ^ 160`.  `math/big` integers are `Int`; `uint256` event fields are `Nat`.
* The relational store is a record of row lists.  The `models` package is not
  part of the embedded file, so its operations are written from the
  specification; each such definition says so.
* `log.Fatal` prints and exits the process: a handler returns an `Outcome`
  whose `fatal` field holds the message when that happened.
* Everything the relayer cannot decide by itself (ABI decoding, the message
  deserializer, the chain RPC, failures of the cache) is a field of `Env`.
* The wrappers of `internal/wrappers` are the identity, and so is
  `utils.ByteSliceToByte32` on the 32 bytes of a hash.
* A bus message is the envelope itself: its JSON form is not modelled.  The
  replies to `Publish` and `SetBit`, which the code discards, are not modelled
  either: a published message is on the bus and a set bit is in the cache.
-/

namespace Relayer

namespace common

/-- A 32-byte value (`common.Hash`). -/
abbrev Hash := Fin (2 ^ 256)

/-- A 20-byte account identity (`common.Address`). -/
abbrev Address := Fin (2 ^ 160)

end common

/-- A byte string. -/
abbrev Bytes := List (Fin 256)

/-! ## Hexadecimal rendering -/

/-- One lowercase hexadecimal digit. -/
def hexDigit (d : Nat) : Char :=
  if d < 10 then Char.ofNat (48 + d) else Char.ofNat (87 + d)

/-- The `k` low hexadecimal digits of `n`, most significant first. -/
def hexChars : Nat → Nat → List Char
  | 0, _ => []
  | k + 1, n => hexChars k (n / 16) ++ [hexDigit (n % 16)]

/-- Lowercase hex of a hash with the `0x` lead (`Hash.Hex`): the key under
which the cache and the logs name an order or a transaction. -/
def common.Hash.Hex (h : common.Hash) : String :=
  "0x" ++ String.mk (hexChars 64 h.val)

/-- Lowercase hex of a byte string, no lead (`common.Bytes2Hex`). -/
def Bytes2Hex (b : Bytes) : String :=
  String.mk (b.flatMap (fun x => hexChars 2 x.val))

/-- ASCII lowercasing (`strings.ToLower` on hex text). -/
def ToLower (s : String) : String :=
  String.mk (s.data.map Char.toLower)

/-- Low 64 bits of a big integer (`(*big.Int).Uint64`). -/
def Uint64 (n : Nat) : Nat := n % 2 ^ 64

/-- Conversion `int64(x)` of a `uint64`. -/
def int64 (x : Nat) : Int :=
  if x % 2 ^ 64 < 2 ^ 63 then ((x % 2 ^ 64 : Nat) : Int) else ((x % 2 ^ 64 : Nat) : Int) - 2 ^ 64

/-! ## Entities -/

/-- Modelled from the spec: the status alphabet of a withdrawal record
(`models.WITHDRAW_STATUS_*`, whose declaration is not in the embedded file). -/
inductive WithdrawStatus where
  | REQUESTED
  | SIGNED
  | PROCESSED
deriving DecidableEq, Repr

/-- Position of a status in the order `REQUESTED < SIGNED < PROCESSED`. -/
def WithdrawStatus.rank : WithdrawStatus → Nat
  | .REQUESTED => 0
  | .SIGNED => 1
  | .PROCESSED => 2

/-- Row of the wallet table (`models.Wallet`). -/
structure Wallet where
  Token : common.Address
  Address : common.Address
  Balance : Int
  EscrowBalance : Int
deriving DecidableEq

/-- Row of the order table (`models.Order`). -/
structure Order where
  Hash : common.Hash
  Token : common.Address
  Base : common.Address
  Price : Int
  Quantity : Int
  IsBid : Bool
  CreatedBy : common.Address
  CreatedAt : Nat
  Volume : Int
  VolumeFilled : Int := 0
  VolumeLeft : Int := 0
  IsOpen : Bool
deriving DecidableEq

/-- Row of the trade table (`models.Trade`). -/
structure Trade where
  BuyOrderHash : common.Hash
  SellOrderHash : common.Hash
  Volume : Int
  TradedAt : Nat
  TxHash : common.Hash
  Token : common.Address
  Base : common.Address
  Price : Int
deriving DecidableEq

/-- Row of the withdrawal table (`models.WithdrawMeta`). -/
structure WithdrawMeta where
  TxHash : common.Hash
  Recipient : common.Address
  Token : common.Address
  Amount : Int
  Status : WithdrawStatus
deriving DecidableEq

/-- Row of the withdrawal signature table (`models.WithdrawSign`). -/
structure WithdrawSign where
  Message : String
  Signature : String
  Signer : common.Address
  SignedAt : Nat
  TxHash : String
deriving DecidableEq

/-- Modelled from the spec: `models.NewWithdrawMeta`, a record with every field
at its zero value; each handler overwrites the status before it is used. -/
def NewWithdrawMeta : WithdrawMeta :=
  { TxHash := 0, Recipient := 0, Token := 0, Amount := 0, Status := .REQUESTED }

/-- Modelled from the spec: `models.NewWithdrawSign`, a record with every field
at its zero value. -/
def NewWithdrawSign : WithdrawSign :=
  { Message := "", Signature := "", Signer := 0, SignedAt := 0, TxHash := "" }

/-- The durable store (`store.DataStore`): one list of rows per table. -/
structure DataStore where
  wallets : List Wallet := []
  orders : List Order := []
  trades : List Trade := []
  withdrawMetas : List WithdrawMeta := []
  withdrawSigns : List WithdrawSign := []
deriving DecidableEq

/-! ## Persistence facade -/

/-- Modelled from the spec: `wallet.save`, an upsert on the key (token, owner). -/
def Wallet.Save (wallet : Wallet) (s : DataStore) : Except String DataStore :=
  if s.wallets.any (fun x => x.Token = wallet.Token ∧ x.Address = wallet.Address) then
    .ok { s with wallets := s.wallets.map (fun x =>
      if x.Token = wallet.Token ∧ x.Address = wallet.Address then wallet else x) }
  else
    .ok { s with wallets := s.wallets ++ [wallet] }

/-- Modelled from the spec: `order.save`, idempotent on the hash: a row whose
hash is already stored is neither duplicated nor reverted.  The stored row
carries the derived `volume_left = volume - volume_filled`. -/
def Order.Save (order : Order) (s : DataStore) : Except String DataStore :=
  if s.orders.any (fun x => x.Hash = order.Hash) then .ok s
  else .ok { s with orders := s.orders ++
    [{ order with VolumeLeft := order.Volume - order.VolumeFilled }] }

/-- Modelled from the spec: `order.get(hash)`, the stored row under the hash of
the receiver, an error when there is none. -/
def Order.Get (order : Order) (s : DataStore) : Except String Order :=
  match s.orders.find? (fun x => x.Hash = order.Hash) with
  | some row => .ok row
  | none => .error "order not found"

/-- Modelled from the spec: `order.close(hash)`, is_open becomes false on the
row under the hash; without such a row nothing changes. -/
def Order.Close (order : Order) (s : DataStore) : Except String DataStore :=
  .ok { s with orders := s.orders.map (fun x =>
    if x.Hash = order.Hash then { x with IsOpen := false } else x) }

/-- Modelled from the spec: `order.update`, the row under the hash takes the
receiver's volume_filled; volume_left is derived from it and is_open becomes
false when volume_left reaches 0. -/
def Order.Update (order : Order) (s : DataStore) : Except String DataStore :=
  .ok { s with orders := s.orders.map (fun x =>
    if x.Hash = order.Hash then
      { x with VolumeFilled := order.VolumeFilled
               VolumeLeft := x.Volume - order.VolumeFilled
               IsOpen := x.IsOpen && decide (x.Volume - order.VolumeFilled ≠ 0) }
    else x) }

/-- Modelled from the spec: whether the stored order `c` is a match candidate
for `o`: open, same pair, opposite side, price crossing the price of `o`. -/
def Order.crosses (o c : Order) : Bool :=
  c.IsOpen && decide (c.Token = o.Token) && decide (c.Base = o.Base) && (c.IsBid != o.IsBid) &&
    (if o.IsBid then decide (c.Price ≤ o.Price) else decide (o.Price ≤ c.Price))

/-- Modelled from the spec: the candidate order of `order.matching_candidates`:
best price first (lowest ask for a bid, highest bid for an ask) and, at equal
price, earliest created_at first. -/
def Order.before (o a b : Order) : Bool :=
  if a.Price = b.Price then decide (a.CreatedAt ≤ b.CreatedAt)
  else if o.IsBid then decide (a.Price < b.Price) else decide (b.Price < a.Price)

/-- Modelled from the spec: `order.matching_candidates(o)`. -/
def Order.GetMatchingOrders (order : Order) (s : DataStore) : Except String (List Order) :=
  .ok ((s.orders.filter (Order.crosses order)).insertionSort
    (fun a b => Order.before order a b = true))

/-- Modelled from the spec: `trade.save`; a trade row is immutable and a row
delivered again is not duplicated. -/
def Trade.Save (trade : Trade) (s : DataStore) : Except String DataStore :=
  if trade ∈ s.trades then .ok s else .ok { s with trades := s.trades ++ [trade] }

/-- Modelled from the spec: `withdraw_meta.save`, idempotent on tx_hash: a
record already stored under the key is neither duplicated nor reverted. -/
def WithdrawMeta.Save (withdraw : WithdrawMeta) (s : DataStore) : Except String DataStore :=
  if s.withdrawMetas.any (fun x => x.TxHash = withdraw.TxHash) then .ok s
  else .ok { s with withdrawMetas := s.withdrawMetas ++ [withdraw] }

/-- Modelled from the spec: `withdraw_meta.get(tx_hash)`, the stored record
under the tx_hash of the receiver, an error when there is none. -/
def WithdrawMeta.Get (withdraw : WithdrawMeta) (s : DataStore) : Except String WithdrawMeta :=
  match s.withdrawMetas.find? (fun x => x.TxHash = withdraw.TxHash) with
  | some row => .ok row
  | none => .error "withdraw meta not found"

/-- Modelled from the spec: `withdraw_meta.update_status`, the record under the
tx_hash takes the receiver's status unless that status is below the stored
one: a write does not revert prior state and the status never regresses.
Nothing else changes. -/
def WithdrawMeta.UpdateStatus (withdraw : WithdrawMeta) (s : DataStore) : DataStore :=
  { s with withdrawMetas := s.withdrawMetas.map (fun x =>
    if x.TxHash = withdraw.TxHash ∧ x.Status.rank ≤ withdraw.Status.rank then
      { x with Status := withdraw.Status }
    else x) }

/-- Modelled from the spec: `withdraw_sign.save`, append-only; a row delivered
again is not duplicated. -/
def WithdrawSign.Save (sign : WithdrawSign) (s : DataStore) : Except String DataStore :=
  if sign ∈ s.withdrawSigns then .ok s else .ok { s with withdrawSigns := s.withdrawSigns ++ [sign] }

/-! ## Events, logs and the relayer's surroundings -/

/-- Decoded `BalanceUpdate`. -/
structure BalanceUpdateEvent where
  Token : common.Address
  User : common.Address
  Balance : Nat
  Escrow : Nat
deriving DecidableEq

/-- Decoded `PlaceBuyOrder` or `PlaceSellOrder`. -/
structure PlaceOrderEvent where
  OrderHash : common.Hash
  Token : common.Address
  Base : common.Address
  Price : Nat
  Quantity : Nat
  Owner : common.Address
  Timestamp : Nat
deriving DecidableEq

/-- Decoded `CancelOrder`. -/
structure CancelOrderEvent where
  OrderHash : common.Hash
deriving DecidableEq

/-- Decoded `Trade`. -/
structure TradeEvent where
  BuyOrderHash : common.Hash
  SellOrderHash : common.Hash
  Volume : Nat
  Timestamp : Nat
deriving DecidableEq

/-- Decoded `OrderFilledVolumeUpdate`. -/
structure UpdateFilledVolumeEvent where
  OrderHash : common.Hash
  Volume : Nat
deriving DecidableEq

/-- Decoded `WithdrawSignatureSubmitted`. -/
structure WithdrawSignEvent where
  Authority : common.Address
  Message : Bytes
  Signature : Bytes
  Timestamp : Nat
deriving DecidableEq

/-- Decoded `ReadyToWithdraw`. -/
structure ReadyToWithdrawEvent where
  Message : Bytes
deriving DecidableEq

/-- Decoded exchange `Withdraw`. -/
structure DexWithdrawEvent where
  Recipient : common.Address
  Token : common.Address
  Value : Nat
deriving DecidableEq

/-- Decoded bridge `Withdraw`. -/
structure BridgeWithdrawEvent where
  Recipient : common.Address
  Token : common.Address
  Value : Nat
  TransactionHash : common.Hash
deriving DecidableEq

/-- A raw chain log (`types.Log`). -/
structure Log where
  Address : common.Address := 0
  Topics : List common.Hash := []
  Data : Bytes := []
  TxHash : common.Hash := 0
deriving DecidableEq

/-- Topic hashes of the exchange contract. -/
structure ExchangeTopics where
  BalanceUpdate : common.Hash
  Withdraw : common.Hash
  ReadyToWithdraw : common.Hash
  WithdrawSignatureSubmitted : common.Hash

/-- Topic hashes of the orderbook contract. -/
structure OrderbookTopics where
  PlaceBuyOrder : common.Hash
  PlaceSellOrder : common.Hash
  CancelOrder : common.Hash

/-- Topic hashes of the order matcher contract. -/
structure OrderMatcherTopics where
  Trade : common.Hash
  OrderFilledVolumeUpdate : common.Hash

/-- Topic hashes of the bridge contract. -/
structure BridgeTopics where
  Withdraw : common.Hash

/-- Address and topics of one contract. -/
structure ContractInfo (T : Type) where
  Address : common.Address
  Topics : T

/-- The contracts descriptor (`utils.ContractsInfo`). -/
structure ContractsInfo where
  Bridge : ContractInfo BridgeTopics
  Exchange : ContractInfo ExchangeTopics
  Orderbook : ContractInfo OrderbookTopics
  OrderMatcher : ContractInfo OrderMatcherTopics

/-- The handler a log is handed to. -/
inductive Handler where
  | balanceUpdate
  | placeOrder (isBid : Bool)
  | cancelOrder
  | trade
  | updateFilledVolume
  | withdrawSignSubmitted
  | readyToWithdraw
  | dexWithdraw
  | bridgeWithdraw
deriving DecidableEq, Repr

/-- Content of a bus message: the entity that is serialized. -/
inductive Payload where
  | order (o : Order)
  | trade (t : Trade)
deriving DecidableEq

/-- The bus envelope (`redisChannelMessage`). -/
structure redisChannelMessage where
  MessageType : String
  Payload : Payload
deriving DecidableEq

/-- The transaction `matchOrders(buy, sell)` handed to the exchange chain. -/
structure MatchTx where
  From : common.Address
  Nonce : Int
  Value : Int
  GasLimit : Nat
  GasPrice : Int
  BuyOrderHash : common.Hash
  SellOrderHash : common.Hash
deriving DecidableEq

/-- Everything the relayer acts on: the store, the bus, the cache, the chain
and the terminal.  `submitCalls` lists the arguments of each call of
`submitMatchedOrder` and `handled` the handlers the dispatchers invoked, both
in order; the cache holds the (key, offset) pairs whose bit is 1. -/
structure World where
  store : DataStore := {}
  published : List (String × redisChannelMessage) := []
  cache : List (String × Nat) := []
  submitCalls : List (common.Hash × common.Hash) := []
  sent : List MatchTx := []
  stdout : List String := []
  handled : List Handler := []
deriving DecidableEq

/-- Decoders of the exchange ABI, one per event (`exchangeABI.Unpack`). -/
structure ExchangeABI where
  BalanceUpdate : Bytes → Except String BalanceUpdateEvent
  Withdraw : Bytes → Except String DexWithdrawEvent
  ReadyToWithdraw : Bytes → Except String ReadyToWithdrawEvent
  WithdrawSignatureSubmitted : Bytes → Except String WithdrawSignEvent

/-- Decoders of the orderbook ABI (`orderbookABI.Unpack`). -/
structure OrderbookABI where
  PlaceBuyOrder : Bytes → Except String PlaceOrderEvent
  PlaceSellOrder : Bytes → Except String PlaceOrderEvent
  CancelOrder : Bytes → Except String CancelOrderEvent

/-- Decoders of the order matcher ABI (`ordermatcherABI.Unpack`). -/
structure OrderMatcherABI where
  Trade : Bytes → Except String TradeEvent
  OrderFilledVolumeUpdate : Bytes → Except String UpdateFilledVolumeEvent

/-- Decoder of the bridge ABI (`bridge.abi.Unpack`). -/
structure BridgeABI where
  Withdraw : Bytes → Except String BridgeWithdrawEvent

/-- The surroundings of the relayer.  The answers of the chain node and the
failure of a cache read may depend on everything that happened so far, so they
are functions of the world. -/
structure Env where
  contracts : ContractsInfo
  matcherAddress : common.Address
  exchangeABI : ExchangeABI
  orderbookABI : OrderbookABI
  ordermatcherABI : OrderMatcherABI
  bridgeABI : BridgeABI
  /-- The deserializer `utils.DeserializeMessage` of a withdrawal message into
  (recipient, token, value, tx_hash). -/
  DeserializeMessage : Bytes → common.Address × common.Address × Int × common.Hash
  /-- The checksummed rendering `common.Address.Hex`. -/
  AddressHex : common.Address → String
  /-- Failure of a cache read, if any. -/
  redisError : World → Option String
  /-- Answer of `PendingNonceAt` for the matcher account. -/
  PendingNonceAt : World → Except String Nat
  /-- Answer of `MatchOrders`: the hash of the broadcast transaction. -/
  MatchOrders : World → MatchTx → Except String common.Hash

/-- What a handler leaves behind: the world, and the message of `log.Fatal`
when the process was ended. -/
structure Outcome where
  world : World
  fatal : Option String := none

/-! ## Primitive effects -/

/-- Text written by `fmt.Printf`. -/
def Printf (w : World) (text : String) : World :=
  { w with stdout := w.stdout ++ [text] }

/-- Line written by `fmt.Println`. -/
def Println (w : World) (text : String) : World :=
  { w with stdout := w.stdout ++ [text ++ "\n"] }

/-- The call `log.Fatal`: the process ends with the message. -/
def Fatal (w : World) (msg : String) : Outcome :=
  { world := w, fatal := some msg }

/-- The call `redisClient.Publish`. -/
def Publish (w : World) (channelKey : String) (msg : redisChannelMessage) : World :=
  { w with published := w.published ++ [(channelKey, msg)] }

/-- The call `redisClient.SetBit(key, offset, value)`. -/
def SetBit (w : World) (key : String) (offset : Nat) (value : Nat) : World :=
  if value = 0 then { w with cache := w.cache.filter (fun kb => decide (kb ≠ (key, offset))) }
  else { w with cache := (key, offset) :: w.cache }

/-- The call `redisClient.GetBit(key, offset).Result()`. -/
def GetBit (env : Env) (w : World) (key : String) (offset : Nat) : Except String Nat :=
  match env.redisError w with
  | some err => .error err
  | none => .ok (if (key, offset) ∈ w.cache then 1 else 0)

/-- The pair channel of a market: lowercased `token/base`. -/
def channelKey (env : Env) (token base : common.Address) : String :=
  ToLower (env.AddressHex token ++ "/" ++ env.AddressHex base)

/-! ## The matcher -/

/-- Result of `submitMatchedOrder`: the world, the message when the process
was ended, and the returned error (`none` is Go's `nil`). -/
structure Submitted where
  world : World
  fatal : Option String := none
  err : Option String := none

/-- The transaction that `submitMatchedOrder` signs with the matcher key: the
given nonce, value 0, gas limit 500000, gas price 0. -/
def matchOrdersTx (env : Env) (nonce : Nat) (buyOrderHash sellOrderHash : common.Hash) :
    MatchTx :=
  { From := env.matcherAddress
    Nonce := int64 nonce
    Value := 0
    GasLimit := 500000
    GasPrice := 0
    BuyOrderHash := buyOrderHash
    SellOrderHash := sellOrderHash }

/-- The function `submitMatchedOrder`: pending nonce of the matcher account,
then the transaction; the receipt is not awaited. -/
def submitMatchedOrder (env : Env) (w : World) (buyOrderHash sellOrderHash : common.Hash) :
    Submitted :=
  let w := { w with submitCalls := w.submitCalls ++ [(buyOrderHash, sellOrderHash)] }
  match env.PendingNonceAt w with
  | .error err => { world := w, fatal := some ("MATCHER_NONCE" ++ err), err := some err }
  | .ok nonce =>
    let tx := matchOrdersTx env nonce buyOrderHash sellOrderHash
    match env.MatchOrders w tx with
    | .error err => { world := w, err := some err }
    | .ok txHash =>
      { world := Println { w with sent := w.sent ++ [tx] } ("tx match: " ++ txHash.Hex) }

/-- State in which the candidate loop of `tryOrderMatching` stops: the world,
the message when the process was ended, and the last value of the local
counter `volumeOfOrder`. -/
structure MatchRun where
  world : World
  fatal : Option String := none
  volumeOfOrder : Int

/-- The test `err == nil` and `orderClosed == 1` on the answer of `GetBit`. -/
def readsClosed (r : Except String Nat) : Bool :=
  match r with
  | .ok orderClosed => orderClosed == 1
  | .error _ => false

/-- The candidate loop of `tryOrderMatching`, from the iteration of the first
listed candidate on, with the line printed after the loop. -/
def matchLoop (env : Env) (order : Order) : List Order → World → Int → MatchRun
  | [], w, volumeOfOrder =>
    { world := Println w "ORDER_NOT_FULFILLED", volumeOfOrder := volumeOfOrder }
  | matchedOrder :: rest, w, volumeOfOrder =>
    if readsClosed (GetBit env w matchedOrder.Hash.Hex 127) then
      matchLoop env order rest w volumeOfOrder
    else
      let s :=
        if order.IsBid then submitMatchedOrder env w order.Hash matchedOrder.Hash
        else submitMatchedOrder env w matchedOrder.Hash order.Hash
      match s.fatal with
      | some msg => { world := s.world, fatal := some msg, volumeOfOrder := volumeOfOrder }
      | none =>
        match s.err with
        | none =>
          if order.Volume ≥ matchedOrder.VolumeLeft then
            matchLoop env order rest (SetBit s.world matchedOrder.Hash.Hex 127 1)
              (volumeOfOrder - matchedOrder.VolumeLeft)
          else
            { world := Println (SetBit s.world order.Hash.Hex 127 1) "ORDER_FILLED"
              volumeOfOrder := volumeOfOrder }
        | some err => matchLoop env order rest (Println s.world err) volumeOfOrder

/-- The function `tryOrderMatching`, with the last value of its counter. -/
def tryOrderMatchingRun (env : Env) (w : World) (order : Order) : MatchRun :=
  match order.GetMatchingOrders w.store with
  | .error err => { world := Println w ("MATCH_ORDER " ++ err), volumeOfOrder := 0 }
  | .ok matchingOrders => matchLoop env order matchingOrders w (order.Volume.natAbs : Int)

/-- The function `tryOrderMatching`. -/
def tryOrderMatching (env : Env) (w : World) (order : Order) : Outcome :=
  let r := tryOrderMatchingRun env w order
  { world := r.world, fatal := r.fatal }

/-! ## Event handlers -/

/-- An order with every field at its zero value. -/
def Order.zero : Order :=
  { Hash := 0, Token := 0, Base := 0, Price := 0, Quantity := 0, IsBid := false
    CreatedBy := 0, CreatedAt := 0, Volume := 0, VolumeFilled := 0, VolumeLeft := 0
    IsOpen := false }

/-- The handler `balanceUpdateLogCallback`. -/
def balanceUpdateLogCallback (env : Env) (w : World) (vLog : Log) : Outcome :=
  match env.exchangeABI.BalanceUpdate vLog.Data with
  | .error err => Fatal w ("Unpack: " ++ err)
  | .ok buEvent =>
    let wallet : Wallet :=
      { Token := buEvent.Token
        Address := buEvent.User
        Balance := buEvent.Balance
        EscrowBalance := buEvent.Escrow }
    match wallet.Save w.store with
    | .error err => Fatal w ("Commit: " ++ err)
    | .ok store =>
      { world := Printf { w with store := store }
          ("\n\nUpdated " ++ env.AddressHex buEvent.Token ++ " token balance of wallet " ++
            env.AddressHex buEvent.User ++ "\n") }

/-- The order that `placeOrderLogCallback` builds from a decoded event. -/
def newOrder (placeOrderEvent : PlaceOrderEvent) (isBid : Bool) : Order :=
  { Hash := placeOrderEvent.OrderHash
    Token := placeOrderEvent.Token
    Base := placeOrderEvent.Base
    Price := placeOrderEvent.Price
    Quantity := placeOrderEvent.Quantity
    IsBid := isBid
    CreatedBy := placeOrderEvent.Owner
    CreatedAt := Uint64 placeOrderEvent.Timestamp
    Volume := (placeOrderEvent.Price : Int) * (placeOrderEvent.Quantity : Int)
    IsOpen := true }

/-- The handler `placeOrderLogCallback`. -/
def placeOrderLogCallback (env : Env) (w : World) (vLog : Log) (isBid : Bool) : Outcome :=
  let unpacked :=
    if !isBid then env.orderbookABI.PlaceSellOrder vLog.Data
    else env.orderbookABI.PlaceBuyOrder vLog.Data
  match unpacked with
  | .error err => Fatal w ("Unpack: " ++ err)
  | .ok placeOrderEvent =>
    let order := newOrder placeOrderEvent isBid
    match order.Save w.store with
    | .error err => Fatal w ("Commit: " ++ err)
    | .ok store =>
      let w := { w with store := store }
      let w := Publish w (channelKey env order.Token order.Base)
        { MessageType := "NEW_ORDER", Payload := .order order }
      let w := Printf w ("\n\nReceived order at " ++ toString placeOrderEvent.Timestamp ++
        " for pair " ++ env.AddressHex placeOrderEvent.Token ++ "/" ++
        env.AddressHex placeOrderEvent.Base ++ "\n")
      tryOrderMatching env w order

/-- The handler `cancelOrderLogCallback`. -/
def cancelOrderLogCallback (env : Env) (w : World) (vLog : Log) : Outcome :=
  match env.orderbookABI.CancelOrder vLog.Data with
  | .error err => Fatal w ("Unpack: " ++ err)
  | .ok cancelOrderEvent =>
    let order : Order := { Order.zero with Hash := cancelOrderEvent.OrderHash }
    match order.Close w.store with
    | .error err => Fatal w ("Commit: " ++ err)
    | .ok store =>
      let w := { w with store := store }
      match order.Get w.store with
      | .error err => Fatal w ("Cannot get order: " ++ err)
      | .ok order =>
        let w := Publish w (channelKey env order.Token order.Base)
          { MessageType := "CANCEL_ORDER", Payload := .order order }
        { world := Printf w
            ("\n\nOrder cancelled/filled " ++ cancelOrderEvent.OrderHash.Hex ++ "\n") }

/-- The handler `tradeLogCallback`. -/
def tradeLogCallback (env : Env) (w : World) (vLog : Log) : Outcome :=
  match env.ordermatcherABI.Trade vLog.Data with
  | .error err => Fatal w ("Unpack: " ++ err)
  | .ok tradeEvent =>
    let sellOrder : Order := { Order.zero with Hash := tradeEvent.SellOrderHash }
    match sellOrder.Get w.store with
    | .error err => Fatal w ("Cannot get sell order: " ++ err)
    | .ok sellOrder =>
      let trade : Trade :=
        { BuyOrderHash := tradeEvent.BuyOrderHash
          SellOrderHash := tradeEvent.SellOrderHash
          Volume := tradeEvent.Volume
          TradedAt := Uint64 tradeEvent.Timestamp
          TxHash := vLog.TxHash
          Token := sellOrder.Token
          Base := sellOrder.Base
          Price := sellOrder.Price }
      match trade.Save w.store with
      | .error err => Fatal w ("Commit: " ++ err)
      | .ok store =>
        let w := { w with store := store }
        let w := Publish w (channelKey env trade.Token trade.Base)
          { MessageType := "TRADE", Payload := .trade trade }
        { world := Printf w ("\n\nReceived order match for " ++ tradeEvent.BuyOrderHash.Hex ++
            "/" ++ tradeEvent.SellOrderHash.Hex ++ "\n") }

/-- The handler `updateFilledVolumeLogCallback`.  The result of the load is not
inspected: without a stored row the order keeps its zero fields. -/
def updateFilledVolumeLogCallback (env : Env) (w : World) (vLog : Log) : Outcome :=
  match env.ordermatcherABI.OrderFilledVolumeUpdate vLog.Data with
  | .error err => Fatal w ("Unpack: " ++ err)
  | .ok updateFilledVolumeEvent =>
    let order : Order := { Order.zero with Hash := updateFilledVolumeEvent.OrderHash }
    let order :=
      match order.Get w.store with
      | .ok row => row
      | .error _ => order
    let order := { order with VolumeFilled := updateFilledVolumeEvent.Volume }
    match order.Update w.store with
    | .error err => Fatal w ("Commit: " ++ err)
    | .ok store =>
      let w := { w with store := store }
      let w := Publish w (channelKey env order.Token order.Base)
        { MessageType := "ORDER_FILL", Payload := .order order }
      { world := Printf w ("\n\nUpdate filled volume of order " ++
          updateFilledVolumeEvent.OrderHash.Hex ++ " to " ++
          toString updateFilledVolumeEvent.Volume ++ "\n") }

/-- The handler `withdrawSignSubmittedCallback`. -/
def withdrawSignSubmittedCallback (env : Env) (w : World) (vLog : Log) : Outcome :=
  match env.exchangeABI.WithdrawSignatureSubmitted vLog.Data with
  | .error err => Fatal w ("Unpack: " ++ err)
  | .ok withdrawSignEvent =>
    let txHash := (env.DeserializeMessage withdrawSignEvent.Message).2.2.2
    let withdrawSign : WithdrawSign :=
      { NewWithdrawSign with
        Message := Bytes2Hex withdrawSignEvent.Message
        Signature := Bytes2Hex withdrawSignEvent.Signature
        Signer := withdrawSignEvent.Authority
        SignedAt := Uint64 withdrawSignEvent.Timestamp
        TxHash := txHash.Hex }
    match withdrawSign.Save w.store with
    | .error err => Fatal w ("COMMIT" ++ err)
    | .ok store =>
      { world := Printf { w with store := store }
          ("\n\nWithdraw request " ++ withdrawSign.Message ++ " signed by authority " ++
            env.AddressHex withdrawSign.Signer ++ " \n") }

/-- The handler `readyToWithdrawCallback`. -/
def readyToWithdrawCallback (env : Env) (w : World) (vLog : Log) : Outcome :=
  match env.exchangeABI.ReadyToWithdraw vLog.Data with
  | .error err => Fatal w ("Unpack: " ++ err)
  | .ok withdrawEvent =>
    let txHash := (env.DeserializeMessage withdrawEvent.Message).2.2.2
    let withdraw : WithdrawMeta := { NewWithdrawMeta with TxHash := txHash }
    match withdraw.Get w.store with
    | .error err => Fatal w ("HIGH ALERT: POSSIBLE HACK: " ++ err)
    | .ok withdraw =>
      let withdraw := { withdraw with Status := WithdrawStatus.SIGNED }
      let w := { w with store := withdraw.UpdateStatus w.store }
      { world := Printf w
          ("\n\nWithdraw request " ++ withdraw.TxHash.Hex ++ " is ready to be processed\n") }

/-- The handler `dexWithdrawCallback`. -/
def dexWithdrawCallback (env : Env) (w : World) (vLog : Log) : Outcome :=
  match env.exchangeABI.Withdraw vLog.Data with
  | .error err => Fatal w ("Unpack: " ++ err)
  | .ok withdrawEvent =>
    let withdraw : WithdrawMeta :=
      { NewWithdrawMeta with
        Recipient := withdrawEvent.Recipient
        Token := withdrawEvent.Token
        Amount := withdrawEvent.Value
        TxHash := vLog.TxHash
        Status := WithdrawStatus.REQUESTED }
    match withdraw.Save w.store with
    | .error err => Fatal w ("COMMIT" ++ err)
    | .ok store =>
      { world := Printf { w with store := store }
          ("\n\nCreated new withdraw request for wallet " ++ env.AddressHex withdraw.Recipient ++
            " from tx " ++ withdraw.TxHash.Hex ++ "\n") }

/-- The handler `bridgeWithdrawCallback`. -/
def bridgeWithdrawCallback (env : Env) (w : World) (vLog : Log) : Outcome :=
  let w := Println w "--------------------"
  let w := Println w "Received `Withdraw` event from Home Network"
  match env.bridgeABI.Withdraw vLog.Data with
  | .error err => Fatal w ("Unpack: " ++ err)
  | .ok withdrawEvent =>
    let withdraw : WithdrawMeta := { NewWithdrawMeta with TxHash := withdrawEvent.TransactionHash }
    match withdraw.Get w.store with
    | .error err => Fatal w ("HIGH ALERT: POSSIBLE HACK: " ++ err)
    | .ok withdraw =>
      let withdraw := { withdraw with Status := WithdrawStatus.PROCESSED }
      let w := { w with store := withdraw.UpdateStatus w.store }
      let w := Println w ("Withdraw processed:  " ++ withdrawEvent.TransactionHash.Hex)
      { world := Println w "--------------------" }

/-! ## Dispatch -/

/-- The `switch topic` of the exchange loop: the first case equal to the topic. -/
def selectHandler (c : ContractsInfo) (topic : common.Hash) : Option Handler :=
  if topic = c.Exchange.Topics.BalanceUpdate then some .balanceUpdate
  else if topic = c.Orderbook.Topics.PlaceBuyOrder then some (.placeOrder true)
  else if topic = c.Orderbook.Topics.PlaceSellOrder then some (.placeOrder false)
  else if topic = c.Orderbook.Topics.CancelOrder then some .cancelOrder
  else if topic = c.OrderMatcher.Topics.Trade then some .trade
  else if topic = c.OrderMatcher.Topics.OrderFilledVolumeUpdate then
    some .updateFilledVolume
  else if topic = c.Exchange.Topics.WithdrawSignatureSubmitted then
    some .withdrawSignSubmitted
  else if topic = c.Exchange.Topics.ReadyToWithdraw then some .readyToWithdraw
  else if topic = c.Exchange.Topics.Withdraw then some .dexWithdraw
  else none

/-- The body of a handler. -/
def Handler.call (env : Env) (w : World) (vLog : Log) : Handler → Outcome
  | .balanceUpdate => balanceUpdateLogCallback env w vLog
  | .placeOrder isBid => placeOrderLogCallback env w vLog isBid
  | .cancelOrder => cancelOrderLogCallback env w vLog
  | .trade => tradeLogCallback env w vLog
  | .updateFilledVolume => updateFilledVolumeLogCallback env w vLog
  | .withdrawSignSubmitted => withdrawSignSubmittedCallback env w vLog
  | .readyToWithdraw => readyToWithdrawCallback env w vLog
  | .dexWithdraw => dexWithdrawCallback env w vLog
  | .bridgeWithdraw => bridgeWithdrawCallback env w vLog

/-- One invocation of a handler by a dispatcher, noted in `handled`. -/
def invoke (env : Env) (w : World) (vLog : Log) (h : Handler) : Outcome :=
  h.call env { w with handled := w.handled ++ [h] } vLog

/-- The loop `for _, topic := range vLog.Topics` of the exchange dispatcher,
from the first listed topic on.  A handler that ends the process ends the loop. -/
def topicLoop (env : Env) (vLog : Log) : List common.Hash → World → Outcome
  | [], w => { world := w }
  | topic :: rest, w =>
    match selectHandler env.contracts topic with
    | none => topicLoop env vLog rest w
    | some h =>
      let r := invoke env w vLog h
      match r.fatal with
      | some msg => { world := r.world, fatal := some msg }
      | none => topicLoop env vLog rest r.world

/-- What a subscription hands to its loop: an error or a log. -/
inductive Received where
  | err (e : String)
  | log (vLog : Log)

/-- One round of the loop started by `RunOnExchangeNetwork`. -/
def RunOnExchangeNetwork (env : Env) (w : World) : Received → Outcome
  | .err e => Fatal w ("Foreign Network Subcription Error:" ++ e)
  | .log vLog => topicLoop env vLog vLog.Topics w

/-- One round of the loop started by `RunOnBridgeNetwork`. -/
def RunOnBridgeNetwork (env : Env) (w : World) : Received → Outcome
  | .err e => Fatal w ("Home Network Subcription Error:" ++ e)
  | .log vLog => invoke env w vLog .bridgeWithdraw

/-- The filter of the exchange subscription: one of the three contract
addresses and a first topic among the nine registered hashes. -/
def exchangeQuery (c : ContractsInfo) (vLog : Log) : Bool :=
  decide (vLog.Address ∈ [c.Exchange.Address, c.Orderbook.Address, c.OrderMatcher.Address]) &&
  match vLog.Topics with
  | [] => false
  | topic :: _ =>
    decide (topic ∈ [c.Exchange.Topics.BalanceUpdate, c.Orderbook.Topics.PlaceBuyOrder,
      c.Orderbook.Topics.PlaceSellOrder, c.Orderbook.Topics.CancelOrder,
      c.OrderMatcher.Topics.Trade, c.OrderMatcher.Topics.OrderFilledVolumeUpdate,
      c.Exchange.Topics.Withdraw, c.Exchange.Topics.ReadyToWithdraw,
      c.Exchange.Topics.WithdrawSignatureSubmitted])

/-- Something received on one of the two subscriptions. -/
inductive Arrival where
  | exchange (r : Received)
  | bridge (r : Received)

/-- The round that an arrival triggers.  Rounds of the two loops are taken one
after the other. -/
def Arrival.handle (env : Env) (w : World) : Arrival → Outcome
  | .exchange r => RunOnExchangeNetwork env w r
  | .bridge r => RunOnBridgeNetwork env w r

/-- The relayer on a sequence of arrivals; nothing is handled once the process
has ended. -/
def run (env : Env) : World → List Arrival → Outcome
  | w, [] => { world := w }
  | w, a :: rest =>
    let r := a.handle env w
    match r.fatal with
    | some msg => { world := r.world, fatal := some msg }
    | none => run env r.world rest

/-! ## Observations -/

/-- The stored withdrawal record under a tx_hash. -/
def withdrawOf (s : DataStore) (h : common.Hash) : Option WithdrawMeta :=
  s.withdrawMetas.find? (fun x => x.TxHash = h)

/-- The status of the stored withdrawal record under a tx_hash. -/
def statusOf (s : DataStore) (h : common.Hash) : Option WithdrawStatus :=
  (withdrawOf s h).map (fun x => x.Status)

/-- The stored order under a hash. -/
def orderOf (s : DataStore) (h : common.Hash) : Option Order :=
  s.orders.find? (fun x => x.Hash = h)

/-- The arguments (buy, sell) with which the loop of `tryOrderMatching` calls
`submitMatchedOrder` for the candidate `c` of `order`. -/
def submissionArgs (order c : Order) : common.Hash × common.Hash :=
  if order.IsBid then (order.Hash, c.Hash) else (c.Hash, order.Hash)

/-- The call of `submitMatchedOrder` that the loop of `tryOrderMatching` makes
for the candidate `c` of `order`. -/
def submission (env : Env) (w : World) (order c : Order) : Submitted :=
  if order.IsBid then submitMatchedOrder env w order.Hash c.Hash
  else submitMatchedOrder env w c.Hash order.Hash

/-- The world in which `submitMatchedOrder` asks the chain node: the call has
been noted. -/
def submitting (w : World) (order c : Order) : World :=
  { w with submitCalls := w.submitCalls ++ [submissionArgs order c] }

/-- Every withdrawal record of `s` is still in `s'` and its status is not
lower there. -/
def StatusMono (s s' : DataStore) : Prop :=
  ∀ (h : common.Hash) (st : WithdrawStatus), statusOf s h = some st →
    ∃ st', statusOf s' h = some st' ∧ st.rank ≤ st'.rank

/-- The row that `order.save` stores for an order: the order with its derived
volume left. -/
def storedRow (o : Order) : Order :=
  { o with VolumeLeft := o.Volume - o.VolumeFilled }

/-- The row that `updateFilledVolumeLogCallback` leaves in place of the stored
row `x` for the event `ev`. -/
def fillRow (ev : UpdateFilledVolumeEvent) (x : Order) : Order :=
  if x.Hash = ev.OrderHash then
    { x with VolumeFilled := (ev.Volume : Int)
             VolumeLeft := x.Volume - (ev.Volume : Int)
             IsOpen := x.IsOpen && decide (x.Volume - (ev.Volume : Int) ≠ 0) }
  else x

/-- The row that `order.close` leaves in place of the stored row `x`. -/
def closeRow (h : common.Hash) (x : Order) : Order :=
  if x.Hash = h then { x with IsOpen := false } else x

/-- One change of the order table by one handler: nothing, a new row for a
decoded place event on a hash not yet stored, the rows of a decoded fill
event, or the closing of a hash. -/
inductive OrdersChange (env : Env) : List Order → List Order → Prop where
  | same (l : List Order) : OrdersChange env l l
  | placed (l : List Order) (data : Bytes) (isBid : Bool) (ev : PlaceOrderEvent) :
      (env.orderbookABI.PlaceBuyOrder data = .ok ev ∨
        env.orderbookABI.PlaceSellOrder data = .ok ev) →
      (∀ x ∈ l, x.Hash ≠ ev.OrderHash) →
      OrdersChange env l (l ++ [storedRow (newOrder ev isBid)])
  | filled (l : List Order) (data : Bytes) (ev : UpdateFilledVolumeEvent) :
      env.ordermatcherABI.OrderFilledVolumeUpdate data = .ok ev →
      OrdersChange env l (l.map (fillRow ev))
  | closed (l : List Order) (h : common.Hash) : OrdersChange env l (l.map (closeRow h))

/-- The hashes of the orders named by the `CANCEL_ORDER` messages on the bus:
the orders that a handled `CancelOrder` closed. -/
def cancelledHashes (w : World) : List common.Hash :=
  w.published.filterMap (fun m =>
    if m.2.MessageType = "CANCEL_ORDER" then
      match m.2.Payload with
      | .order o => some o.Hash
      | .trade _ => none
    else none)

/-- The invariant of an order table `l`, with `cs` the hashes of the cancelled
orders: every order has a filled volume between 0 and its volume and is open
exactly when its filled volume is below its volume and it was not cancelled;
and every cancelled order is in the table. -/
def BookInv (l : List Order) (cs : List common.Hash) : Prop :=
  (∀ o ∈ l, 0 ≤ o.VolumeFilled ∧ o.VolumeFilled ≤ o.Volume ∧
      (o.IsOpen = true ↔ (o.VolumeFilled < o.Volume ∧ o.Hash ∉ cs))) ∧
    ∀ h ∈ cs, ∃ o ∈ l, o.Hash = h

/-- The invariant of the stored orders of a world. -/
def OrderInv (w : World) : Prop :=
  BookInv w.store.orders (cancelledHashes w)

/-- What is asked of the event that a handler is about to handle in the world
`w`: a place event has a positive volume (price times quantity), and a fill
event carries, for each stored order under its hash, at least the stored
filled volume and at most the volume.  Nothing is asked of other events nor of
data that do not decode. -/
def Handler.admissible (env : Env) (w : World) (vLog : Log) : Handler → Bool
  | .placeOrder isBid =>
    match (if !isBid then env.orderbookABI.PlaceSellOrder vLog.Data
      else env.orderbookABI.PlaceBuyOrder vLog.Data) with
    | .ok ev => decide (0 < ev.Price * ev.Quantity)
    | .error _ => true
  | .updateFilledVolume =>
    match env.ordermatcherABI.OrderFilledVolumeUpdate vLog.Data with
    | .ok ev =>
      w.store.orders.all (fun o =>
        decide (o.Hash = ev.OrderHash →
          o.VolumeFilled ≤ (ev.Volume : Int) ∧ (ev.Volume : Int) ≤ o.Volume))
    | .error _ => true
  | _ => true

/-- The events handled by the topic loop of the exchange dispatcher, from the
first listed topic on, are admissible, each in the world in which it is
handled. -/
def topicsAdmissible (env : Env) (vLog : Log) : List common.Hash → World → Bool
  | [], _ => true
  | topic :: rest, w =>
    match selectHandler env.contracts topic with
    | none => topicsAdmissible env vLog rest w
    | some h =>
      h.admissible env w vLog &&
        match (invoke env w vLog h).fatal with
        | some _ => true
        | none => topicsAdmissible env vLog rest (invoke env w vLog h).world

/-- The events handled for one arrival are admissible. -/
def Arrival.admissible (env : Env) (w : World) : Arrival → Bool
  | .exchange (.log vLog) => topicsAdmissible env vLog vLog.Topics w
  | _ => true

/-- The events handled along a sequence of arrivals are admissible, each in
the world in which it is handled. -/
def runAdmissible (env : Env) : World → List Arrival → Bool
  | _, [] => true
  | w, a :: rest =>
    a.admissible env w &&
      match (a.handle env w).fatal with
      | some _ => true
      | none => runAdmissible env (a.handle env w).world rest

/-- Every order stored in `l` is still stored in `l'`, with the same volume,
and closed there if it was closed in `l`. -/
def ClosedStays (l l' : List Order) : Prop :=
  ∀ (h : common.Hash) (o : Order), l.find? (fun x => decide (x.Hash = h)) = some o →
    ∃ o', l'.find? (fun x => decide (x.Hash = h)) = some o' ∧ o'.Volume = o.Volume ∧
      (o.IsOpen = false → o'.IsOpen = false)

/-! ## A small environment for worked examples -/

/-- A byte read as a hash. -/
def byteHash (b : Fin 256) : common.Hash := Fin.castLE (by norm_num) b

/-- A byte read as an address. -/
def byteAddress (b : Fin 256) : common.Address := Fin.castLE (by norm_num) b

/-- Contract descriptor of the examples. -/
def sampleContracts : ContractsInfo :=
  { Bridge := { Address := 1, Topics := { Withdraw := 10 } }
    Exchange := { Address := 2, Topics :=
      { BalanceUpdate := 11, Withdraw := 12, ReadyToWithdraw := 13
        WithdrawSignatureSubmitted := 14 } }
    Orderbook := { Address := 3, Topics :=
      { PlaceBuyOrder := 15, PlaceSellOrder := 16, CancelOrder := 17 } }
    OrderMatcher := { Address := 4, Topics := { Trade := 18, OrderFilledVolumeUpdate := 19 } } }

/-- Decoder of the examples for both order events: one byte per field. -/
def samplePlaceOrder : Bytes → Except String PlaceOrderEvent
  | [h, t, b, p, q, o, ts] =>
    .ok { OrderHash := byteHash h, Token := byteAddress t, Base := byteAddress b
          Price := p.val, Quantity := q.val, Owner := byteAddress o, Timestamp := ts.val }
  | _ => .error "abi: improperly formatted output"

/-- Environment of the examples: every event field is one byte of the data, a
withdrawal message is the four bytes (recipient, token, value, tx_hash), the
cache and the chain node answer without error. -/
def sampleEnv : Env :=
  { contracts := sampleContracts
    matcherAddress := 77
    exchangeABI :=
      { BalanceUpdate := fun d =>
          match d with
          | [t, u, b, e] =>
            .ok { Token := byteAddress t, User := byteAddress u, Balance := b.val, Escrow := e.val }
          | _ => .error "abi: improperly formatted output"
        Withdraw := fun d =>
          match d with
          | [r, t, v] => .ok { Recipient := byteAddress r, Token := byteAddress t, Value := v.val }
          | _ => .error "abi: improperly formatted output"
        ReadyToWithdraw := fun d => .ok { Message := d }
        WithdrawSignatureSubmitted := fun d =>
          match d with
          | a :: ts :: msg =>
            .ok { Authority := byteAddress a, Message := msg, Signature := [], Timestamp := ts.val }
          | _ => .error "abi: improperly formatted output" }
    orderbookABI :=
      { PlaceBuyOrder := samplePlaceOrder
        PlaceSellOrder := samplePlaceOrder
        CancelOrder := fun d =>
          match d with
          | [h] => .ok { OrderHash := byteHash h }
          | _ => .error "abi: improperly formatted output" }
    ordermatcherABI :=
      { Trade := fun d =>
          match d with
          | [b, s, v, ts] =>
            .ok { BuyOrderHash := byteHash b, SellOrderHash := byteHash s, Volume := v.val
                  Timestamp := ts.val }
          | _ => .error "abi: improperly formatted output"
        OrderFilledVolumeUpdate := fun d =>
          match d with
          | [h, v] => .ok { OrderHash := byteHash h, Volume := v.val }
          | _ => .error "abi: improperly formatted output" }
    bridgeABI :=
      { Withdraw := fun d =>
          match d with
          | [r, t, v, h] =>
            .ok { Recipient := byteAddress r, Token := byteAddress t, Value := v.val
                  TransactionHash := byteHash h }
          | _ => .error "abi: improperly formatted output" }
    DeserializeMessage := fun m =>
      (byteAddress (m.getD 0 0), byteAddress (m.getD 1 0), ((m.getD 2 0).val : Int),
        byteHash (m.getD 3 0))
    AddressHex := fun a => "0x" ++ String.mk (hexChars 40 a.val)
    redisError := fun _ => none
    PendingNonceAt := fun w => .ok w.sent.length
    MatchOrders := fun w _ => .ok (Fin.ofNat w.submitCalls.length) }

/-- Stored sell order 0xBB of the examples: pair (0x07, 0x0B), price 2,
volume 4, nothing filled. -/
def sampleAskBB : Order :=
  { Hash := 0xBB, Token := 0x07, Base := 0x0B, Price := 2, Quantity := 2, IsBid := false
    CreatedBy := 0x0C, CreatedAt := 90, Volume := 4, VolumeFilled := 0, VolumeLeft := 4
    IsOpen := true }

/-- Stored sell order 0xCC of the examples: same pair and price, volume 8,
placed later. -/
def sampleAskCC : Order :=
  { Hash := 0xCC, Token := 0x07, Base := 0x0B, Price := 2, Quantity := 4, IsBid := false
    CreatedBy := 0x0C, CreatedAt := 95, Volume := 8, VolumeFilled := 0, VolumeLeft := 8
    IsOpen := true }

/-- World of the examples: the two sell orders are stored, nothing else
happened. -/
def sampleMarket : World :=
  { store := { orders := [sampleAskBB, sampleAskCC] } }

/-- Bid 0xAA of the examples with volume 10: price 2, quantity 5. -/
def sampleBid10 : Order :=
  newOrder { OrderHash := 0xAA, Token := 0x07, Base := 0x0B, Price := 2, Quantity := 5
             Owner := 0x0D, Timestamp := 100 } true

/-- An exchange log of the examples with two registered topics: `Withdraw`
first, `ReadyToWithdraw` second; its transaction hash is 0. -/
def sampleTwoTopics : Log :=
  { Address := 2, Topics := [12, 13], Data := [5, 6, 50], TxHash := 0 }

/-- A log of the examples whose first topic is not registered and whose second
topic is `Withdraw`. -/
def sampleForeignFirst : Log :=
  { Address := 2, Topics := [99, 12], Data := [5, 6, 50], TxHash := 0 }

/-- The event `PlaceBuyOrder(hash 0xAA, token 0x07, base 0x0B, price 2,
quantity 3, owner 0x0D, timestamp 100)` of the examples. -/
def samplePlaceEvent : PlaceOrderEvent :=
  { OrderHash := 0xAA, Token := 0x07, Base := 0x0B, Price := 2, Quantity := 3, Owner := 0x0D
    Timestamp := 100 }

/-- The log that carries `samplePlaceEvent` as a `PlaceBuyOrder`. -/
def samplePlaceLog : Log :=
  { Address := 3, Topics := [15], Data := [0xAA, 0x07, 0x0B, 2, 3, 0x0D, 100], TxHash := 0x70 }

/-- A `CancelOrder` log of the examples, naming the order 0xAA. -/
def sampleCancelLog : Log :=
  { Address := 3, Topics := [17], Data := [0xAA], TxHash := 0x71 }

/-- An `OrderFilledVolumeUpdate` log of the examples: order 0xAA, volume 7. -/
def sampleFill7Log : Log :=
  { Address := 4, Topics := [19], Data := [0xAA, 7], TxHash := 0x72 }

/-- An `OrderFilledVolumeUpdate` log of the examples: order 0xAA, volume 3. -/
def sampleFill3Log : Log :=
  { Address := 4, Topics := [19], Data := [0xAA, 3], TxHash := 0x75 }

/-- An `OrderFilledVolumeUpdate` log of the examples: order 0xAA, volume 6. -/
def sampleFill6Log : Log :=
  { Address := 4, Topics := [19], Data := [0xAA, 6], TxHash := 0x73 }

/-- A `PlaceBuyOrder` log of the examples with price 0: order 0xA0, quantity 3. -/
def sampleZeroPriceLog : Log :=
  { Address := 3, Topics := [15], Data := [0xA0, 0x07, 0x0B, 0, 3, 0x0D, 100], TxHash := 0x74 }

/-- The world of the examples after the bid 0xAA of volume 6 was placed on the
empty store. -/
def samplePlaced : World :=
  (run sampleEnv {} [.exchange (.log samplePlaceLog)]).world

/-- The event carried by `sampleFill6Log`. -/
def sampleFill6Event : UpdateFilledVolumeEvent :=
  { OrderHash := 0xAA, Volume := 6 }

/-- Stored bid 0xEE of the examples: pair (0x07, 0x0B), price 5, volume 5,
nothing filled. -/
def sampleBidEE : Order :=
  { Hash := 0xEE, Token := 0x07, Base := 0x0B, Price := 5, Quantity := 1, IsBid := true
    CreatedBy := 0x0C, CreatedAt := 80, Volume := 5, VolumeFilled := 0, VolumeLeft := 5
    IsOpen := true }

/-- Sell order 0xDD of the examples with volume 8: price 4, quantity 2. -/
def sampleAsk8 : Order :=
  newOrder { OrderHash := 0xDD, Token := 0x07, Base := 0x0B, Price := 4, Quantity := 2
             Owner := 0x0D, Timestamp := 101 } false

/-- The environment of the examples with a chain node that refuses to give the
pending nonce. -/
def nonceDownEnv : Env :=
  { sampleEnv with PendingNonceAt := fun _ => .error "connection refused" }

/-- The environment of the examples with a chain node that rejects every
transaction. -/
def sendDownEnv : Env :=
  { sampleEnv with MatchOrders := fun _ _ => .error "nonce too low" }

/-- Exchange `Withdraw` of the examples, from transaction 0x57. -/
def sampleDexWithdraw : Arrival :=
  .exchange (.log { Address := 2, Topics := [12], Data := [5, 6, 50], TxHash := 0x57 })

/-- `ReadyToWithdraw` of the examples, its message naming transaction 0x57. -/
def sampleReady : Arrival :=
  .exchange (.log { Address := 2, Topics := [13], Data := [5, 6, 50, 0x57], TxHash := 0x60 })

/-- Bridge `Withdraw` of the examples, naming transaction 0x57. -/
def sampleBridgeWithdraw : Arrival :=
  .bridge (.log { Address := 1, Topics := [10], Data := [5, 6, 50, 0x57], TxHash := 0x61 })

/-- The world of the examples after two exchange `Withdraw` events on the empty
store, from the transactions 0x57 and 0x58: both records are at REQUESTED. -/
def sampleTwoRequests : World :=
  (run sampleEnv {} [sampleDexWithdraw,
    .exchange (.log { Address := 2, Topics := [12], Data := [8, 6, 20], TxHash := 0x58 })]).world

/-- The record of transaction 0x57 in `sampleTwoRequests`. -/
def sampleRequest57 : WithdrawMeta :=
  { TxHash := 0x57, Recipient := 5, Token := 6, Amount := 50, Status := .REQUESTED }

/-- The bridge `Withdraw` event naming transaction 0x57. -/
def sampleBridgeEvent : BridgeWithdrawEvent :=
  { Recipient := 5, Token := 6, Value := 50, TransactionHash := 0x57 }

/-! ## Frame lemmas -/

theorem Printf_store (w : World) (t : String) : (Printf w t).store = w.store := rfl

theorem Println_store (w : World) (t : String) : (Println w t).store = w.store := rfl

theorem Publish_store (w : World) (k : String) (m : redisChannelMessage) :
    (Publish w k m).store = w.store := rfl

theorem SetBit_store (w : World) (k : String) (o v : Nat) : (SetBit w k o v).store = w.store := by
  unfold SetBit; split <;> rfl

theorem submitMatchedOrder_store (env : Env) (w : World) (b s : common.Hash) :
    (submitMatchedOrder env w b s).world.store = w.store := by
  unfold submitMatchedOrder
  simp only []
  split
  · rfl
  · split <;> rfl

theorem matchLoop_store (env : Env) (order : Order) (cands : List Order) :
    ∀ (w : World) (v : Int), (matchLoop env order cands w v).world.store = w.store := by
  induction cands with
  | nil => intro w v; rfl
  | cons c rest ih =>
    intro w v
    unfold matchLoop
    split
    · exact ih w v
    · simp only []
      split
      · split <;> exact submitMatchedOrder_store _ _ _ _
      · split
        · split
          · rw [ih, SetBit_store]; split <;> exact submitMatchedOrder_store _ _ _ _
          · simp only [Println_store, SetBit_store]
            split <;> exact submitMatchedOrder_store _ _ _ _
        · rw [ih, Println_store]; split <;> exact submitMatchedOrder_store _ _ _ _

theorem tryOrderMatching_store (env : Env) (w : World) (order : Order) :
    (tryOrderMatching env w order).world.store = w.store := by
  unfold tryOrderMatching tryOrderMatchingRun
  simp only []
  split
  · rfl
  · exact matchLoop_store _ _ _ _ _

theorem Wallet_Save_withdrawMetas {wallet : Wallet} {s s' : DataStore}
    (h : wallet.Save s = .ok s') : s'.withdrawMetas = s.withdrawMetas := by
  unfold Wallet.Save at h
  split at h <;> (cases h; rfl)

theorem Order_Save_withdrawMetas {order : Order} {s s' : DataStore}
    (h : order.Save s = .ok s') : s'.withdrawMetas = s.withdrawMetas := by
  unfold Order.Save at h
  split at h <;> (cases h; rfl)

theorem Order_Close_withdrawMetas {order : Order} {s s' : DataStore}
    (h : order.Close s = .ok s') : s'.withdrawMetas = s.withdrawMetas := by
  unfold Order.Close at h
  cases h; rfl

theorem Order_Update_withdrawMetas {order : Order} {s s' : DataStore}
    (h : order.Update s = .ok s') : s'.withdrawMetas = s.withdrawMetas := by
  unfold Order.Update at h
  cases h; rfl

theorem Trade_Save_withdrawMetas {trade : Trade} {s s' : DataStore}
    (h : trade.Save s = .ok s') : s'.withdrawMetas = s.withdrawMetas := by
  unfold Trade.Save at h
  split at h <;> (cases h; rfl)

theorem WithdrawSign_Save_withdrawMetas {sign : WithdrawSign} {s s' : DataStore}
    (h : sign.Save s = .ok s') : s'.withdrawMetas = s.withdrawMetas := by
  unfold WithdrawSign.Save at h
  split at h <;> (cases h; rfl)

theorem balanceUpdateLogCallback_withdrawMetas (env : Env) (w : World) (vLog : Log) :
    (balanceUpdateLogCallback env w vLog).world.store.withdrawMetas = w.store.withdrawMetas := by
  unfold balanceUpdateLogCallback
  split
  · rfl
  · simp only []
    split
    · rfl
    · next h => exact Wallet_Save_withdrawMetas h

theorem placeOrderLogCallback_withdrawMetas (env : Env) (w : World) (vLog : Log) (isBid : Bool) :
    (placeOrderLogCallback env w vLog isBid).world.store.withdrawMetas =
      w.store.withdrawMetas := by
  unfold placeOrderLogCallback
  simp only []
  split
  · rfl
  · split
    · rfl
    · next h =>
      rw [tryOrderMatching_store]
      exact Order_Save_withdrawMetas h

theorem cancelOrderLogCallback_withdrawMetas (env : Env) (w : World) (vLog : Log) :
    (cancelOrderLogCallback env w vLog).world.store.withdrawMetas = w.store.withdrawMetas := by
  unfold cancelOrderLogCallback
  split
  · rfl
  · simp only []
    split
    · rfl
    · next h =>
      split
      · exact Order_Close_withdrawMetas h
      · exact Order_Close_withdrawMetas h

theorem tradeLogCallback_withdrawMetas (env : Env) (w : World) (vLog : Log) :
    (tradeLogCallback env w vLog).world.store.withdrawMetas = w.store.withdrawMetas := by
  unfold tradeLogCallback
  split
  · rfl
  · simp only []
    split
    · rfl
    · split
      · rfl
      · next h => exact Trade_Save_withdrawMetas h

theorem updateFilledVolumeLogCallback_withdrawMetas (env : Env) (w : World) (vLog : Log) :
    (updateFilledVolumeLogCallback env w vLog).world.store.withdrawMetas =
      w.store.withdrawMetas := by
  unfold updateFilledVolumeLogCallback
  split
  · rfl
  · simp only []
    split
    · rfl
    · next h => exact Order_Update_withdrawMetas h

theorem withdrawSignSubmittedCallback_withdrawMetas (env : Env) (w : World) (vLog : Log) :
    (withdrawSignSubmittedCallback env w vLog).world.store.withdrawMetas =
      w.store.withdrawMetas := by
  unfold withdrawSignSubmittedCallback
  split
  · rfl
  · simp only []
    split
    · rfl
    · next h => exact WithdrawSign_Save_withdrawMetas h

/-! ## Withdrawal status along handlers -/

theorem statusOf_of_withdrawMetas {s s' : DataStore} (h : s'.withdrawMetas = s.withdrawMetas)
    (k : common.Hash) : statusOf s' k = statusOf s k := by
  unfold statusOf withdrawOf
  rw [h]

theorem StatusMono_refl (s : DataStore) : StatusMono s s :=
  fun _ st h => ⟨st, h, le_refl _⟩

theorem StatusMono_of_withdrawMetas {s s' : DataStore} (h : s'.withdrawMetas = s.withdrawMetas) :
    StatusMono s s' :=
  fun k st hk => ⟨st, by rw [statusOf_of_withdrawMetas h]; exact hk, le_refl _⟩

theorem StatusMono_trans {s s' s'' : DataStore} (h : StatusMono s s') (h' : StatusMono s' s'') :
    StatusMono s s'' := by
  intro k st hk
  obtain ⟨st', h1, h2⟩ := h k st hk
  obtain ⟨st'', h3, h4⟩ := h' k st' h1
  exact ⟨st'', h3, le_trans h2 h4⟩

theorem rank_le_PROCESSED (st : WithdrawStatus) : st.rank ≤ WithdrawStatus.PROCESSED.rank := by
  cases st <;> decide

theorem find_map_key (f : WithdrawMeta → WithdrawMeta) (hf : ∀ x, (f x).TxHash = x.TxHash)
    (l : List WithdrawMeta) (k : common.Hash) :
    (l.map f).find? (fun x => decide (x.TxHash = k)) =
      (l.find? (fun x => decide (x.TxHash = k))).map f := by
  induction l with
  | nil => rfl
  | cons a t ih =>
    simp only [List.map_cons, List.find?_cons, hf]
    cases decide (a.TxHash = k) with
    | true => rfl
    | false => exact ih

theorem withdrawOf_UpdateStatus (wd : WithdrawMeta) (s : DataStore) (k : common.Hash) :
    withdrawOf (wd.UpdateStatus s) k =
      (withdrawOf s k).map (fun x =>
        if x.TxHash = wd.TxHash ∧ x.Status.rank ≤ wd.Status.rank then
          { x with Status := wd.Status }
        else x) := by
  unfold withdrawOf WithdrawMeta.UpdateStatus
  apply find_map_key
  intro x
  split <;> rfl

theorem withdrawOf_key {s : DataStore} {k : common.Hash} {x : WithdrawMeta}
    (h : withdrawOf s k = some x) : x.TxHash = k := by
  unfold withdrawOf at h
  have := List.find?_some h
  simpa using this

theorem statusOf_UpdateStatus (wd : WithdrawMeta) (s : DataStore) (k : common.Hash) :
    statusOf (wd.UpdateStatus s) k =
      (statusOf s k).map (fun s0 =>
        if k = wd.TxHash ∧ s0.rank ≤ wd.Status.rank then wd.Status else s0) := by
  unfold statusOf
  rw [withdrawOf_UpdateStatus]
  cases hx : withdrawOf s k with
  | none => rfl
  | some x =>
    have hk := withdrawOf_key hx
    subst hk
    simp only [Option.map_some']
    split <;> rfl

theorem WithdrawMeta_Save_statusOf {wd : WithdrawMeta} {s s' : DataStore}
    (h : wd.Save s = .ok s') (k : common.Hash) (st : WithdrawStatus)
    (hk : statusOf s k = some st) : statusOf s' k = some st := by
  unfold WithdrawMeta.Save at h
  split at h
  · cases h; exact hk
  · cases h
    unfold statusOf withdrawOf at hk ⊢
    simp only [List.find?_append]
    cases hf : s.withdrawMetas.find? (fun x => decide (x.TxHash = k)) with
    | none => rw [hf] at hk; cases hk
    | some x => rw [hf] at hk; simpa using hk

theorem readyToWithdrawCallback_status (env : Env) (w : World) (vLog : Log) :
    StatusMono w.store (readyToWithdrawCallback env w vLog).world.store := by
  unfold readyToWithdrawCallback
  split
  · exact StatusMono_refl _
  · simp only []
    split
    · exact StatusMono_refl _
    · intro k st hk
      simp only [Printf_store, statusOf_UpdateStatus, hk, Option.map_some']
      refine ⟨_, rfl, ?_⟩
      split
      · next h => exact h.2
      · exact le_refl _

theorem bridgeWithdrawCallback_status (env : Env) (w : World) (vLog : Log) :
    StatusMono w.store (bridgeWithdrawCallback env w vLog).world.store := by
  unfold bridgeWithdrawCallback
  simp only []
  split
  · exact StatusMono_refl _
  · split
    · exact StatusMono_refl _
    · intro k st hk
      simp only [Println_store, statusOf_UpdateStatus, hk, Option.map_some']
      refine ⟨_, rfl, ?_⟩
      split
      · next h => exact h.2
      · exact le_refl _

theorem dexWithdrawCallback_status (env : Env) (w : World) (vLog : Log) :
    StatusMono w.store (dexWithdrawCallback env w vLog).world.store := by
  unfold dexWithdrawCallback
  split
  · exact StatusMono_refl _
  · simp only []
    split
    · exact StatusMono_refl _
    · next h =>
      intro k st hk
      exact ⟨st, WithdrawMeta_Save_statusOf h k st hk, le_refl _⟩

theorem Handler_call_mono (env : Env) (w : World) (vLog : Log) (h : Handler) :
    StatusMono w.store (h.call env w vLog).world.store := by
  cases h with
  | balanceUpdate => exact StatusMono_of_withdrawMetas (balanceUpdateLogCallback_withdrawMetas env w vLog)
  | placeOrder isBid =>
    exact StatusMono_of_withdrawMetas (placeOrderLogCallback_withdrawMetas env w vLog isBid)
  | cancelOrder => exact StatusMono_of_withdrawMetas (cancelOrderLogCallback_withdrawMetas env w vLog)
  | trade => exact StatusMono_of_withdrawMetas (tradeLogCallback_withdrawMetas env w vLog)
  | updateFilledVolume =>
    exact StatusMono_of_withdrawMetas (updateFilledVolumeLogCallback_withdrawMetas env w vLog)
  | withdrawSignSubmitted =>
    exact StatusMono_of_withdrawMetas (withdrawSignSubmittedCallback_withdrawMetas env w vLog)
  | readyToWithdraw => exact readyToWithdrawCallback_status env w vLog
  | dexWithdraw => exact dexWithdrawCallback_status env w vLog
  | bridgeWithdraw => exact bridgeWithdrawCallback_status env w vLog

theorem invoke_status (env : Env) (w : World) (vLog : Log) (h : Handler) :
    StatusMono w.store (invoke env w vLog h).world.store :=
  Handler_call_mono env { w with handled := w.handled ++ [h] } vLog h

theorem topicLoop_status (env : Env) (vLog : Log) (topics : List common.Hash) :
    ∀ w : World, StatusMono w.store (topicLoop env vLog topics w).world.store := by
  induction topics with
  | nil => intro w; exact StatusMono_refl _
  | cons t rest ih =>
    intro w
    unfold topicLoop
    split
    · exact ih w
    · simp only []
      split
      · exact invoke_status env w vLog _
      · exact StatusMono_trans (invoke_status env w vLog _) (ih _)

theorem Arrival_handle_status (env : Env) (w : World) (a : Arrival) :
    StatusMono w.store (a.handle env w).world.store := by
  cases a with
  | exchange r =>
    cases r with
    | err e => exact StatusMono_refl _
    | log vLog => exact topicLoop_status env vLog _ w
  | bridge r =>
    cases r with
    | err e => exact StatusMono_refl _
    | log vLog => exact invoke_status env w vLog _

theorem run_status (env : Env) (arrivals : List Arrival) :
    ∀ w : World, StatusMono w.store (run env w arrivals).world.store := by
  induction arrivals with
  | nil => intro w; exact StatusMono_refl _
  | cons a rest ih =>
    intro w
    unfold run
    simp only []
    split
    · exact Arrival_handle_status env w a
    · exact StatusMono_trans (Arrival_handle_status env w a) (ih _)

theorem readyToWithdrawCallback_found (env : Env) (w : World) (vLog : Log)
    (ev : ReadyToWithdrawEvent) (r : WithdrawMeta)
    (hdec : env.exchangeABI.ReadyToWithdraw vLog.Data = .ok ev)
    (hr : withdrawOf w.store (env.DeserializeMessage ev.Message).2.2.2 = some r) :
    (readyToWithdrawCallback env w vLog).fatal = none ∧
      (readyToWithdrawCallback env w vLog).world.store =
        ({ r with Status := WithdrawStatus.SIGNED } : WithdrawMeta).UpdateStatus w.store := by
  have hget : ({ NewWithdrawMeta with TxHash := (env.DeserializeMessage ev.Message).2.2.2 } :
      WithdrawMeta).Get w.store = .ok r := by
    unfold WithdrawMeta.Get
    unfold withdrawOf at hr
    simp only [hr]
  unfold readyToWithdrawCallback
  simp only [hdec, hget]
  refine ⟨?_, ?_⟩ <;> first | rfl | trivial

/-! ## Withdrawal state machine: claims -/

/-- C1.  (1) Along every sequence of arrivals on the two subscriptions, from
every store, each withdrawal record stays in the store and its status is
where it was or higher on the scale REQUESTED, SIGNED, PROCESSED: it is never
moved from PROCESSED to SIGNED or REQUESTED nor from SIGNED to REQUESTED.
(2) The same holds for every single invocation of every handler.  (3) The
handler of a `ReadyToWithdraw` whose message names a stored record returns
without alarm and leaves a record that was at PROCESSED at PROCESSED, and a
record that was at REQUESTED or SIGNED at SIGNED: handled after the bridge
`Withdraw` it does not lower the status. -/
theorem C1_status_monotone (env : Env) (w : World) :
    (∀ arrivals : List Arrival, StatusMono w.store (run env w arrivals).world.store) ∧
      (∀ (vLog : Log) (h : Handler), StatusMono w.store (invoke env w vLog h).world.store) ∧
      (∀ (vLog : Log) (ev : ReadyToWithdrawEvent) (st : WithdrawStatus),
        env.exchangeABI.ReadyToWithdraw vLog.Data = .ok ev →
        statusOf w.store (env.DeserializeMessage ev.Message).2.2.2 = some st →
        (readyToWithdrawCallback env w vLog).fatal = none ∧
          statusOf (readyToWithdrawCallback env w vLog).world.store
              (env.DeserializeMessage ev.Message).2.2.2 =
            some (if st = .PROCESSED then .PROCESSED else .SIGNED)) := by
  refine ⟨fun arrivals => run_status env arrivals w, fun vLog h => invoke_status env w vLog h, ?_⟩
  intro vLog ev st hdec hst
  cases hr : withdrawOf w.store (env.DeserializeMessage ev.Message).2.2.2 with
  | none =>
    unfold statusOf at hst
    rw [hr] at hst
    cases hst
  | some r =>
    obtain ⟨hf, hs⟩ := readyToWithdrawCallback_found env w vLog ev r hdec hr
    refine ⟨hf, ?_⟩
    rw [hs, statusOf_UpdateStatus, hst]
    have hk : r.TxHash = (env.DeserializeMessage ev.Message).2.2.2 := withdrawOf_key hr
    show some (if (env.DeserializeMessage ev.Message).2.2.2 = r.TxHash ∧
      st.rank ≤ WithdrawStatus.SIGNED.rank then WithdrawStatus.SIGNED else st) = _
    cases st
    · rw [if_pos ⟨hk.symm, by decide⟩]; rfl
    · rw [if_pos ⟨hk.symm, by decide⟩]; rfl
    · rw [if_neg (fun h => absurd h.2 (by decide))]; rfl

/-- C1, witness: the `ReadyToWithdraw` for transaction 0x57 handled after the
exchange `Withdraw` and the bridge `Withdraw` of that transaction leaves the
record at PROCESSED; handled right after the exchange `Withdraw` it moves the
record from REQUESTED to SIGNED. -/
theorem C1_status_monotone_witness :
    statusOf (run sampleEnv {} [sampleDexWithdraw, sampleBridgeWithdraw]).world.store 0x57 =
        some .PROCESSED ∧
      ((readyToWithdrawCallback sampleEnv
            (run sampleEnv {} [sampleDexWithdraw, sampleBridgeWithdraw]).world
            { Data := [5, 6, 50, 0x57] }).fatal = none ∧
        statusOf (readyToWithdrawCallback sampleEnv
            (run sampleEnv {} [sampleDexWithdraw, sampleBridgeWithdraw]).world
            { Data := [5, 6, 50, 0x57] }).world.store 0x57 = some .PROCESSED) ∧
      ((readyToWithdrawCallback sampleEnv (run sampleEnv {} [sampleDexWithdraw]).world
            { Data := [5, 6, 50, 0x57] }).fatal = none ∧
        statusOf (readyToWithdrawCallback sampleEnv (run sampleEnv {} [sampleDexWithdraw]).world
            { Data := [5, 6, 50, 0x57] }).world.store 0x57 = some .SIGNED) ∧
      statusOf
          (run sampleEnv {} [sampleDexWithdraw, sampleBridgeWithdraw, sampleReady]).world.store
          0x57 = some .PROCESSED :=
  ⟨by decide,
    (C1_status_monotone sampleEnv
      (run sampleEnv {} [sampleDexWithdraw, sampleBridgeWithdraw]).world).2.2
      { Data := [5, 6, 50, 0x57] } { Message := [5, 6, 50, 0x57] } .PROCESSED rfl (by decide),
    (C1_status_monotone sampleEnv (run sampleEnv {} [sampleDexWithdraw]).world).2.2
      { Data := [5, 6, 50, 0x57] } { Message := [5, 6, 50, 0x57] } .REQUESTED rfl (by decide),
    by decide⟩

/-- C2.  When the store holds no withdrawal record under `h`, the handler of a
`ReadyToWithdraw` whose message decodes to `h` and the handler of a bridge
`Withdraw` carrying `h` both end the process with the alarm
`HIGH ALERT: POSSIBLE HACK` and leave the store as it was: no record is
created and no status is changed. -/
theorem C2_missing_record_is_fatal_alarm (env : Env) (w : World) (h : common.Hash)
    (habsent : withdrawOf w.store h = none) :
    (∀ (vLog : Log) (ev : ReadyToWithdrawEvent),
        env.exchangeABI.ReadyToWithdraw vLog.Data = .ok ev →
        (env.DeserializeMessage ev.Message).2.2.2 = h →
        (∃ err, (readyToWithdrawCallback env w vLog).fatal =
            some ("HIGH ALERT: POSSIBLE HACK: " ++ err)) ∧
          (readyToWithdrawCallback env w vLog).world.store = w.store) ∧
      (∀ (vLog : Log) (ev : BridgeWithdrawEvent),
        env.bridgeABI.Withdraw vLog.Data = .ok ev →
        ev.TransactionHash = h →
        (∃ err, (bridgeWithdrawCallback env w vLog).fatal =
            some ("HIGH ALERT: POSSIBLE HACK: " ++ err)) ∧
          (bridgeWithdrawCallback env w vLog).world.store = w.store) := by
  unfold withdrawOf at habsent
  constructor
  · intro vLog ev hev hh
    subst hh
    unfold readyToWithdrawCallback
    simp only [hev, WithdrawMeta.Get, habsent, Fatal]
    exact ⟨⟨_, rfl⟩, trivial⟩
  · intro vLog ev hev hh
    subst hh
    unfold bridgeWithdrawCallback
    simp only [hev, WithdrawMeta.Get, Println_store, habsent, Fatal]
    exact ⟨⟨_, rfl⟩, trivial⟩

/-- C2, witness: the two handlers on the empty store, for transaction 0x57. -/
theorem C2_missing_record_is_fatal_alarm_witness :
    ((∃ err, (readyToWithdrawCallback sampleEnv {} { Data := [5, 6, 50, 0x57] }).fatal =
          some ("HIGH ALERT: POSSIBLE HACK: " ++ err)) ∧
        (readyToWithdrawCallback sampleEnv {} { Data := [5, 6, 50, 0x57] }).world.store = {}) ∧
      ((∃ err, (bridgeWithdrawCallback sampleEnv {} { Data := [5, 6, 50, 0x57] }).fatal =
          some ("HIGH ALERT: POSSIBLE HACK: " ++ err)) ∧
        (bridgeWithdrawCallback sampleEnv {} { Data := [5, 6, 50, 0x57] }).world.store = {}) :=
  ⟨(C2_missing_record_is_fatal_alarm sampleEnv {} 0x57 rfl).1 { Data := [5, 6, 50, 0x57] }
      { Message := [5, 6, 50, 0x57] } rfl rfl,
    (C2_missing_record_is_fatal_alarm sampleEnv {} 0x57 rfl).2 { Data := [5, 6, 50, 0x57] }
      { Recipient := 5, Token := 6, Value := 50, TransactionHash := 0x57 } rfl rfl⟩

/-! ## The matcher: lemmas -/

theorem matchLoop_cons (env : Env) (order c : Order) (rest : List Order) (w : World) (v : Int) :
    matchLoop env order (c :: rest) w v =
      if readsClosed (GetBit env w c.Hash.Hex 127) then matchLoop env order rest w v
      else
        match (submission env w order c).fatal with
        | some msg =>
          { world := (submission env w order c).world, fatal := some msg, volumeOfOrder := v }
        | none =>
          match (submission env w order c).err with
          | none =>
            if order.Volume ≥ c.VolumeLeft then
              matchLoop env order rest (SetBit (submission env w order c).world c.Hash.Hex 127 1)
                (v - c.VolumeLeft)
            else
              { world := Println (SetBit (submission env w order c).world order.Hash.Hex 127 1)
                  "ORDER_FILLED"
                volumeOfOrder := v }
          | some err => matchLoop env order rest (Println (submission env w order c).world err) v := by
  rfl

theorem submission_eq (env : Env) (w : World) (order c : Order) :
    submission env w order c =
      match env.PendingNonceAt (submitting w order c) with
      | .error err =>
        { world := submitting w order c, fatal := some ("MATCHER_NONCE" ++ err), err := some err }
      | .ok nonce =>
        match env.MatchOrders (submitting w order c)
            (matchOrdersTx env nonce (submissionArgs order c).1 (submissionArgs order c).2) with
        | .error err => { world := submitting w order c, err := some err }
        | .ok txHash =>
          { world := Println
              { submitting w order c with sent := (submitting w order c).sent ++
                  [matchOrdersTx env nonce (submissionArgs order c).1 (submissionArgs order c).2] }
              ("tx match: " ++ txHash.Hex) } := by
  unfold submission submitting submissionArgs submitMatchedOrder
  split <;> rfl

theorem submission_submitCalls (env : Env) (w : World) (order c : Order) :
    (submission env w order c).world.submitCalls = w.submitCalls ++ [submissionArgs order c] := by
  rw [submission_eq]
  split
  · rfl
  · split <;> rfl

theorem SetBit_one_submitCalls (w : World) (k : String) (o : Nat) :
    (SetBit w k o 1).submitCalls = w.submitCalls := rfl

/-- C5, counterexample.  With a chain node that fails to give the pending nonce,
the loop of `tryOrderMatching` for the bid 0xAA over the candidates 0xBB and
0xCC ends the process at the first candidate: the message is `MATCHER_NONCE`
with the error, and 0xCC is never tried. -/
theorem C5_nonce_failure_ends_process :
    readsClosed (GetBit nonceDownEnv sampleMarket sampleAskBB.Hash.Hex 127) = false ∧
      (matchLoop nonceDownEnv sampleBid10 [sampleAskBB, sampleAskCC] sampleMarket 10).fatal =
        some "MATCHER_NONCEconnection refused" ∧
      (matchLoop nonceDownEnv sampleBid10 [sampleAskBB, sampleAskCC] sampleMarket
        10).world.submitCalls = [(0xAA, 0xBB)] ∧
      (tryOrderMatching nonceDownEnv sampleMarket sampleBid10).fatal =
        some "MATCHER_NONCEconnection refused" := by
  decide

/-- C5, amended.  In the iteration of `tryOrderMatching` for a candidate `c`
that is not skipped: when the pending nonce is obtained and the broadcast of
the transaction fails with `e`, the loop prints `e`, sets no bit and goes on
with the next candidate; when obtaining the pending nonce fails with `e`, the
process is ended with the message `MATCHER_NONCE` and `e`, no bit is set and
no later candidate is tried. -/
theorem C5_submission_failure (env : Env) (order c : Order) (rest : List Order) (w : World)
    (volumeOfOrder : Int)
    (hread : readsClosed (GetBit env w c.Hash.Hex 127) = false) :
    (∀ (nonce : Nat) (e : String),
        env.PendingNonceAt (submitting w order c) = .ok nonce →
        env.MatchOrders (submitting w order c)
          (matchOrdersTx env nonce (submissionArgs order c).1 (submissionArgs order c).2) =
            .error e →
        matchLoop env order (c :: rest) w volumeOfOrder =
            matchLoop env order rest (Println (submitting w order c) e) volumeOfOrder ∧
          (Println (submitting w order c) e).cache = w.cache ∧
          (Println (submitting w order c) e).stdout = w.stdout ++ [e ++ "\n"]) ∧
      (∀ e : String,
        env.PendingNonceAt (submitting w order c) = .error e →
        matchLoop env order (c :: rest) w volumeOfOrder =
            { world := submitting w order c
              fatal := some ("MATCHER_NONCE" ++ e)
              volumeOfOrder := volumeOfOrder } ∧
          (submitting w order c).cache = w.cache) := by
  constructor
  · intro nonce e hn hm
    refine ⟨?_, rfl, rfl⟩
    rw [matchLoop_cons, submission_eq]
    simp only [hread, hn, hm, Bool.false_eq_true, if_false]
  · intro e hn
    refine ⟨?_, rfl⟩
    rw [matchLoop_cons, submission_eq]
    simp only [hread, hn, Bool.false_eq_true, if_false]

/-- C5, witness: the bid 0xAA against the sell order 0xBB, once with a chain
node that rejects the transaction and once with one that gives no nonce. -/
theorem C5_submission_failure_witness :
    (matchLoop sendDownEnv sampleBid10 [sampleAskBB, sampleAskCC] sampleMarket 10 =
          matchLoop sendDownEnv sampleBid10 [sampleAskCC]
            (Println (submitting sampleMarket sampleBid10 sampleAskBB) "nonce too low") 10 ∧
        (Println (submitting sampleMarket sampleBid10 sampleAskBB) "nonce too low").cache =
          sampleMarket.cache ∧
        (Println (submitting sampleMarket sampleBid10 sampleAskBB) "nonce too low").stdout =
          sampleMarket.stdout ++ ["nonce too low" ++ "\n"]) ∧
      (matchLoop nonceDownEnv sampleBid10 [sampleAskBB, sampleAskCC] sampleMarket 10 =
          { world := submitting sampleMarket sampleBid10 sampleAskBB
            fatal := some ("MATCHER_NONCE" ++ "connection refused")
            volumeOfOrder := 10 } ∧
        (submitting sampleMarket sampleBid10 sampleAskBB).cache = sampleMarket.cache) :=
  ⟨(C5_submission_failure sendDownEnv sampleBid10 sampleAskBB [sampleAskCC] sampleMarket 10
      (by decide)).1 0 "nonce too low" rfl rfl,
    (C5_submission_failure nonceDownEnv sampleBid10 sampleAskBB [sampleAskCC] sampleMarket 10
      (by decide)).2 "connection refused" rfl⟩

/-! ## The dispatch trace along handlers -/

theorem submission_handled (env : Env) (w : World) (order c : Order) :
    (submission env w order c).world.handled = w.handled := by
  rw [submission_eq]
  split
  · rfl
  · split <;> rfl

theorem matchLoop_handled (env : Env) (order : Order) (cands : List Order) :
    ∀ (w : World) (v : Int), (matchLoop env order cands w v).world.handled = w.handled := by
  induction cands with
  | nil => intro w v; rfl
  | cons c rest ih =>
    intro w v
    rw [matchLoop_cons]
    split
    · exact ih w v
    · split
      · exact submission_handled env w order c
      · split
        · split
          · rw [ih]; exact submission_handled env w order c
          · exact submission_handled env w order c
        · rw [ih]; exact submission_handled env w order c

theorem tryOrderMatching_handled (env : Env) (w : World) (order : Order) :
    (tryOrderMatching env w order).world.handled = w.handled := by
  unfold tryOrderMatching tryOrderMatchingRun
  simp only []
  split
  · rfl
  · exact matchLoop_handled _ _ _ _ _

theorem Handler_call_handled (env : Env) (w : World) (vLog : Log) (h : Handler) :
    (h.call env w vLog).world.handled = w.handled := by
  cases h with
  | balanceUpdate =>
    show (balanceUpdateLogCallback env w vLog).world.handled = _
    unfold balanceUpdateLogCallback
    repeat' first | rfl | split | (simp only []; split)
  | placeOrder isBid =>
    show (placeOrderLogCallback env w vLog isBid).world.handled = _
    unfold placeOrderLogCallback
    repeat' first | rfl | (rw [tryOrderMatching_handled]; rfl) | split | (simp only []; split)
  | cancelOrder =>
    show (cancelOrderLogCallback env w vLog).world.handled = _
    unfold cancelOrderLogCallback
    repeat' first | rfl | split | (simp only []; split)
  | trade =>
    show (tradeLogCallback env w vLog).world.handled = _
    unfold tradeLogCallback
    repeat' first | rfl | split | (simp only []; split)
  | updateFilledVolume =>
    show (updateFilledVolumeLogCallback env w vLog).world.handled = _
    unfold updateFilledVolumeLogCallback
    repeat' first | rfl | split
  | withdrawSignSubmitted =>
    show (withdrawSignSubmittedCallback env w vLog).world.handled = _
    unfold withdrawSignSubmittedCallback
    repeat' first | rfl | split | (simp only []; split)
  | readyToWithdraw =>
    show (readyToWithdrawCallback env w vLog).world.handled = _
    unfold readyToWithdrawCallback
    repeat' first | rfl | split | (simp only []; split)
  | dexWithdraw =>
    show (dexWithdrawCallback env w vLog).world.handled = _
    unfold dexWithdrawCallback
    repeat' first | rfl | split | (simp only []; split)
  | bridgeWithdraw =>
    show (bridgeWithdrawCallback env w vLog).world.handled = _
    unfold bridgeWithdrawCallback
    simp only []
    repeat' first | rfl | split

theorem invoke_handled (env : Env) (w : World) (vLog : Log) (h : Handler) :
    (invoke env w vLog h).world.handled = w.handled ++ [h] :=
  Handler_call_handled env { w with handled := w.handled ++ [h] } vLog h

theorem topicLoop_handled (env : Env) (vLog : Log) (topics : List common.Hash) :
    ∀ w : World, ∃ hs,
      (topicLoop env vLog topics w).world.handled = w.handled ++ hs ∧
        hs <+: topics.filterMap (selectHandler env.contracts) ∧
        ((topicLoop env vLog topics w).fatal = none →
          hs = topics.filterMap (selectHandler env.contracts)) := by
  induction topics with
  | nil => intro w; exact ⟨[], by simp [topicLoop], List.prefix_refl _, fun _ => rfl⟩
  | cons t rest ih =>
    intro w
    unfold topicLoop
    split
    · next hsel =>
      obtain ⟨hs, h1, h2, h3⟩ := ih w
      refine ⟨hs, h1, ?_, ?_⟩
      · simpa only [List.filterMap_cons, hsel] using h2
      · simpa only [List.filterMap_cons, hsel] using h3
    · next h hsel =>
      simp only []
      split
      · next msg hf =>
        refine ⟨[h], invoke_handled env w vLog h, ?_, ?_⟩
        · simp only [List.filterMap_cons, hsel]
          exact List.prefix_iff_eq_append.mpr (by simp)
        · intro hnone; cases hnone
      · next hf =>
        obtain ⟨hs, h1, h2, h3⟩ := ih (invoke env w vLog h).world
        refine ⟨h :: hs, ?_, ?_, ?_⟩
        · rw [h1, invoke_handled]; simp
        · simp only [List.filterMap_cons, hsel]
          exact (List.prefix_cons_inj h).mpr h2
        · intro hnone
          simp only [List.filterMap_cons, hsel]
          rw [h3 hnone]

theorem topicLoop_unregistered (env : Env) (vLog : Log) (topics : List common.Hash) (w : World)
    (h : ∀ t ∈ topics, selectHandler env.contracts t = none) :
    topicLoop env vLog topics w = { world := w } := by
  induction topics with
  | nil => rfl
  | cons t rest ih =>
    unfold topicLoop
    rw [h t (List.mem_cons_self _ _)]
    exact ih (fun t' ht' => h t' (List.mem_cons_of_mem _ ht'))

/-! ## Dispatch: claims -/

/-- C6, counterexample.  The log `sampleTwoTopics` passes the filter of the
exchange subscription and carries two registered topics: on the empty world
the dispatcher invokes two handlers for it, `dexWithdrawCallback` and then
`readyToWithdrawCallback`, and the record it created is left at SIGNED.  The
log `sampleForeignFirst` has a first topic that is none of the nine hashes,
and a handler is invoked for it all the same. -/
theorem C6_two_topics_two_handlers :
    exchangeQuery sampleEnv.contracts sampleTwoTopics = true ∧
      (RunOnExchangeNetwork sampleEnv {} (.log sampleTwoTopics)).world.handled =
        [.dexWithdraw, .readyToWithdraw] ∧
      (RunOnExchangeNetwork sampleEnv {} (.log sampleTwoTopics)).fatal = none ∧
      statusOf (RunOnExchangeNetwork sampleEnv {} (.log sampleTwoTopics)).world.store 0 =
        some .SIGNED ∧
      selectHandler sampleEnv.contracts 99 = none ∧
      (RunOnExchangeNetwork sampleEnv {} (.log sampleForeignFirst)).world.handled =
        [.dexWithdraw] := by
  decide

/-- C6, amended.  For a log received on the exchange subscription every topic,
at any index, is compared with the nine registered hashes, in the order of the
topics; each topic equal to one of them invokes the handler of the first such
hash, once, until a handler ends the process.  So the handlers invoked are the
handlers of the registered topics of the log, all of them when the process is
not ended and a leading part of them otherwise; a log with a single topic
invokes at most one handler, once; a log none of whose topics is registered
invokes no handler and changes nothing. -/
theorem C6_dispatch_per_topic (env : Env) (w : World) (vLog : Log) :
    (∃ hs,
        (RunOnExchangeNetwork env w (.log vLog)).world.handled = w.handled ++ hs ∧
          hs <+: vLog.Topics.filterMap (selectHandler env.contracts) ∧
          ((RunOnExchangeNetwork env w (.log vLog)).fatal = none →
            hs = vLog.Topics.filterMap (selectHandler env.contracts))) ∧
      (∀ t : common.Hash, vLog.Topics = [t] →
        (RunOnExchangeNetwork env w (.log vLog)).world.handled =
          w.handled ++ (selectHandler env.contracts t).toList) ∧
      ((∀ t ∈ vLog.Topics, selectHandler env.contracts t = none) →
        RunOnExchangeNetwork env w (.log vLog) = { world := w }) := by
  refine ⟨topicLoop_handled env vLog vLog.Topics w, ?_, ?_⟩
  · intro t ht
    show (topicLoop env vLog vLog.Topics w).world.handled = _
    rw [ht]
    unfold topicLoop
    split
    · next hsel => rw [hsel]; simp [topicLoop]
    · next h hsel =>
      rw [hsel]
      simp only []
      split
      · exact invoke_handled env w vLog h
      · exact invoke_handled env w vLog h
  · intro h
    exact topicLoop_unregistered env vLog vLog.Topics w h

/-- C6, witness: a log with the single topic `Withdraw`, and a log with the
single unregistered topic 99. -/
theorem C6_dispatch_per_topic_witness :
    (RunOnExchangeNetwork sampleEnv {}
          (.log { Topics := [12], Data := [5, 6, 50] })).world.handled =
        ([] : List Handler) ++ (selectHandler sampleEnv.contracts 12).toList ∧
      RunOnExchangeNetwork sampleEnv {} (.log { Topics := [99], Data := [5, 6, 50] }) =
        { world := {} } :=
  ⟨(C6_dispatch_per_topic sampleEnv {} { Topics := [12], Data := [5, 6, 50] }).2.1 12 rfl,
    (C6_dispatch_per_topic sampleEnv {} { Topics := [99], Data := [5, 6, 50] }).2.2
      (fun t ht => by
        have ht' : t = 99 := List.mem_singleton.mp ht
        subst ht'
        decide)⟩

/-! ## Order handlers: lemmas -/

theorem orderOf_absent {s : DataStore} {h : common.Hash} (habs : orderOf s h = none) :
    ∀ x ∈ s.orders, x.Hash ≠ h := by
  intro x hx
  unfold orderOf at habs
  have := List.find?_eq_none.mp habs x hx
  simpa using this

theorem map_absent (f : Order → Order) (h : common.Hash) (l : List Order)
    (hf : ∀ x, x.Hash ≠ h → f x = x) (habs : ∀ x ∈ l, x.Hash ≠ h) : l.map f = l := by
  induction l with
  | nil => rfl
  | cons a t ih =>
    rw [List.map_cons, hf a (habs a (List.mem_cons_self _ _)),
      ih (fun x hx => habs x (List.mem_cons_of_mem _ hx))]

theorem orderOf_append_new (l : List Order) (o : Order) (habs : ∀ x ∈ l, x.Hash ≠ o.Hash) :
    (l ++ [o]).find? (fun x => decide (x.Hash = o.Hash)) = some o := by
  rw [List.find?_append]
  have hnone : l.find? (fun x => decide (x.Hash = o.Hash)) = none := by
    apply List.find?_eq_none.mpr
    intro x hx
    simpa using habs x hx
  rw [hnone]
  simp

/-! ## Order handlers: claims -/

/-- C10.  When the data of the log decode as a `PlaceBuyOrder` (`isBid` true) or
a `PlaceSellOrder` (`isBid` false) event `ev`, the handler saves the order
`newOrder ev isBid`, publishes it and hands that very order to the matcher;
on a hash not yet stored, the stored row is that order with its volume left.
The order has is_bid as given, volume the exact product of price and
quantity, volume_filled 0, is_open true, and hash, token, base, price,
quantity and owner as in the event. -/
theorem C10_placed_order_fields (env : Env) (w : World) (vLog : Log) (isBid : Bool)
    (ev : PlaceOrderEvent)
    (hdec : (if isBid then env.orderbookABI.PlaceBuyOrder vLog.Data
      else env.orderbookABI.PlaceSellOrder vLog.Data) = .ok ev) :
    (∃ store, (newOrder ev isBid).Save w.store = .ok store ∧
        (orderOf w.store ev.OrderHash = none →
          orderOf store ev.OrderHash =
            some { newOrder ev isBid with VolumeLeft := ((ev.Price * ev.Quantity : Nat) : Int) }) ∧
        placeOrderLogCallback env w vLog isBid =
          tryOrderMatching env
            (Printf
              (Publish { w with store := store } (channelKey env ev.Token ev.Base)
                { MessageType := "NEW_ORDER", Payload := .order (newOrder ev isBid) })
              ("\n\nReceived order at " ++ toString ev.Timestamp ++ " for pair " ++
                env.AddressHex ev.Token ++ "/" ++ env.AddressHex ev.Base ++ "\n"))
            (newOrder ev isBid)) ∧
      (newOrder ev isBid).IsBid = isBid ∧
      (newOrder ev isBid).Volume = ((ev.Price * ev.Quantity : Nat) : Int) ∧
      (newOrder ev isBid).VolumeFilled = 0 ∧
      (newOrder ev isBid).IsOpen = true ∧
      (newOrder ev isBid).Hash = ev.OrderHash ∧
      (newOrder ev isBid).Token = ev.Token ∧
      (newOrder ev isBid).Base = ev.Base ∧
      (newOrder ev isBid).Price = (ev.Price : Int) ∧
      (newOrder ev isBid).Quantity = (ev.Quantity : Int) ∧
      (newOrder ev isBid).CreatedBy = ev.Owner := by
  have hvol : (newOrder ev isBid).Volume = ((ev.Price * ev.Quantity : Nat) : Int) := by
    show (ev.Price : Int) * (ev.Quantity : Int) = _
    exact (Nat.cast_mul _ _).symm
  refine ⟨?_, rfl, hvol, rfl, rfl, rfl, rfl, rfl, rfl, rfl, rfl⟩
  have hdec' : (if (!isBid) = true then env.orderbookABI.PlaceSellOrder vLog.Data
      else env.orderbookABI.PlaceBuyOrder vLog.Data) = .ok ev := by
    cases isBid <;> simpa using hdec
  have hcall : ∀ store, (newOrder ev isBid).Save w.store = .ok store →
      placeOrderLogCallback env w vLog isBid =
        tryOrderMatching env
          (Printf
            (Publish { w with store := store } (channelKey env ev.Token ev.Base)
              { MessageType := "NEW_ORDER", Payload := .order (newOrder ev isBid) })
            ("\n\nReceived order at " ++ toString ev.Timestamp ++ " for pair " ++
              env.AddressHex ev.Token ++ "/" ++ env.AddressHex ev.Base ++ "\n"))
          (newOrder ev isBid) := by
    intro store hs
    unfold placeOrderLogCallback
    simp only [hdec', hs]
    rfl
  by_cases hany : (w.store.orders.any (fun x => x.Hash = (newOrder ev isBid).Hash)) = true
  · have hs : (newOrder ev isBid).Save w.store = .ok w.store := by
      unfold Order.Save; rw [if_pos hany]
    refine ⟨w.store, hs, ?_, hcall _ hs⟩
    intro habs
    exfalso
    rw [List.any_eq_true] at hany
    obtain ⟨x, hx, hxh⟩ := hany
    exact orderOf_absent habs x hx (by simpa using hxh)
  · have hs : (newOrder ev isBid).Save w.store = .ok { w.store with orders := w.store.orders ++
        [{ newOrder ev isBid with
            VolumeLeft := (newOrder ev isBid).Volume - (newOrder ev isBid).VolumeFilled }] } := by
      unfold Order.Save; rw [if_neg hany]
    refine ⟨_, hs, ?_, hcall _ hs⟩
    intro habs
    have hrow : ({ newOrder ev isBid with
          VolumeLeft := (newOrder ev isBid).Volume - (newOrder ev isBid).VolumeFilled } : Order) =
        { newOrder ev isBid with VolumeLeft := ((ev.Price * ev.Quantity : Nat) : Int) } := by
      rw [hvol]
      show ({ newOrder ev isBid with VolumeLeft := ((ev.Price * ev.Quantity : Nat) : Int) - 0 } :
        Order) = _
      rw [sub_zero]
    unfold orderOf
    simp only [hrow]
    exact orderOf_append_new w.store.orders
      { newOrder ev isBid with VolumeLeft := ((ev.Price * ev.Quantity : Nat) : Int) }
      (orderOf_absent habs)

/-- C10, witness: price 2 and quantity 3 give a bid of volume 6. -/
theorem C10_placed_order_fields_witness :
    sampleEnv.orderbookABI.PlaceBuyOrder samplePlaceLog.Data = .ok samplePlaceEvent ∧
      (newOrder samplePlaceEvent true).IsBid = true ∧
      (newOrder samplePlaceEvent true).Volume = 6 ∧
      (newOrder samplePlaceEvent true).VolumeFilled = 0 ∧
      (newOrder samplePlaceEvent true).IsOpen = true :=
  ⟨rfl,
    (C10_placed_order_fields sampleEnv {} samplePlaceLog true samplePlaceEvent rfl).2.1,
    (C10_placed_order_fields sampleEnv {} samplePlaceLog true samplePlaceEvent rfl).2.2.1,
    (C10_placed_order_fields sampleEnv {} samplePlaceLog true samplePlaceEvent rfl).2.2.2.1,
    (C10_placed_order_fields sampleEnv {} samplePlaceLog true samplePlaceEvent rfl).2.2.2.2.1⟩

/-- C8, counterexample.  On the empty store the handler of a `CancelOrder`
naming the order 0xAA ends the process: the absence is reported through
`log.Fatal`. -/
theorem C8_cancel_absent_order_ends_process :
    orderOf ({} : World).store 0xAA = none ∧
      (cancelOrderLogCallback sampleEnv {} sampleCancelLog).fatal =
        some "Cannot get order: order not found" ∧
      (RunOnExchangeNetwork sampleEnv {} (.log sampleCancelLog)).fatal =
        some "Cannot get order: order not found" := by
  decide

/-- C8, amended.  When the data of the log decode as a `CancelOrder` naming a
hash under which no order is stored, the handler reports the absence through
`log.Fatal` with the message `Cannot get order: ` and the error of the load,
which ends the process; no message is published and the stored orders are as
before. -/
theorem C8_cancel_absent_order_is_fatal (env : Env) (w : World) (vLog : Log)
    (ev : CancelOrderEvent)
    (hdec : env.orderbookABI.CancelOrder vLog.Data = .ok ev)
    (habs : orderOf w.store ev.OrderHash = none) :
    (∃ err, (cancelOrderLogCallback env w vLog).fatal = some ("Cannot get order: " ++ err)) ∧
      (cancelOrderLogCallback env w vLog).world.published = w.published ∧
      (cancelOrderLogCallback env w vLog).world.store = w.store := by
  have hmap : w.store.orders.map (fun x =>
      if x.Hash = ev.OrderHash then { x with IsOpen := false } else x) = w.store.orders :=
    map_absent _ ev.OrderHash _ (fun x hx => if_neg hx) (orderOf_absent habs)
  have hclose : ({ Order.zero with Hash := ev.OrderHash } : Order).Close w.store = .ok w.store := by
    unfold Order.Close
    simp only [hmap]
  have hget : ({ Order.zero with Hash := ev.OrderHash } : Order).Get w.store =
      .error "order not found" := by
    unfold Order.Get
    unfold orderOf at habs
    simp only [habs]
  unfold cancelOrderLogCallback
  simp only [hdec, hclose, hget, Fatal]
  exact ⟨⟨_, rfl⟩, trivial, trivial⟩

/-- C8, witness: the `CancelOrder` naming 0xAA on the empty store. -/
theorem C8_cancel_absent_order_is_fatal_witness :
    (∃ err, (cancelOrderLogCallback sampleEnv {} sampleCancelLog).fatal =
        some ("Cannot get order: " ++ err)) ∧
      (cancelOrderLogCallback sampleEnv {} sampleCancelLog).world.published =
        ({} : World).published ∧
      (cancelOrderLogCallback sampleEnv {} sampleCancelLog).world.store = ({} : World).store :=
  C8_cancel_absent_order_is_fatal sampleEnv {} sampleCancelLog { OrderHash := 0xAA } rfl rfl

/-! ## The order table along handlers -/

theorem Wallet_Save_orders {wallet : Wallet} {s s' : DataStore}
    (h : wallet.Save s = .ok s') : s'.orders = s.orders := by
  unfold Wallet.Save at h
  split at h <;> (cases h; rfl)

theorem Trade_Save_orders {trade : Trade} {s s' : DataStore}
    (h : trade.Save s = .ok s') : s'.orders = s.orders := by
  unfold Trade.Save at h
  split at h <;> (cases h; rfl)

theorem WithdrawSign_Save_orders {sign : WithdrawSign} {s s' : DataStore}
    (h : sign.Save s = .ok s') : s'.orders = s.orders := by
  unfold WithdrawSign.Save at h
  split at h <;> (cases h; rfl)

theorem WithdrawMeta_Save_orders {wd : WithdrawMeta} {s s' : DataStore}
    (h : wd.Save s = .ok s') : s'.orders = s.orders := by
  unfold WithdrawMeta.Save at h
  split at h <;> (cases h; rfl)

theorem Order_Save_orders {order : Order} {s s' : DataStore} (h : order.Save s = .ok s') :
    s'.orders = s.orders ∨
      (s'.orders = s.orders ++ [storedRow order] ∧ ∀ x ∈ s.orders, x.Hash ≠ order.Hash) := by
  unfold Order.Save at h
  split at h
  · cases h; exact Or.inl rfl
  · next hany =>
    cases h
    refine Or.inr ⟨rfl, ?_⟩
    intro x hx hxh
    apply hany
    rw [List.any_eq_true]
    exact ⟨x, hx, by simpa using hxh⟩

theorem Order_Close_orders {order : Order} {s s' : DataStore} (h : order.Close s = .ok s') :
    s'.orders = s.orders.map (closeRow order.Hash) := by
  unfold Order.Close at h
  cases h; rfl

theorem Order_Get_hash {order row : Order} {s : DataStore} (h : order.Get s = .ok row) :
    row.Hash = order.Hash := by
  unfold Order.Get at h
  split at h
  · next hf =>
    cases h
    have := List.find?_some hf
    simpa using this
  · cases h

theorem Order_Update_orders {order : Order} {s s' : DataStore} {ev : UpdateFilledVolumeEvent}
    (h : order.Update s = .ok s') (hh : order.Hash = ev.OrderHash)
    (hv : order.VolumeFilled = (ev.Volume : Int)) : s'.orders = s.orders.map (fillRow ev) := by
  unfold Order.Update at h
  cases h
  show s.orders.map _ = s.orders.map (fillRow ev)
  rw [hh, hv]
  rfl

theorem updateFilledVolumeLogCallback_orders (env : Env) (w : World) (vLog : Log) :
    OrdersChange env w.store.orders
      (updateFilledVolumeLogCallback env w vLog).world.store.orders := by
  unfold updateFilledVolumeLogCallback
  split
  · exact .same _
  · next ev hdec =>
    simp only []
    split
    · exact .same _
    · next store hs =>
      have hh : (match ({ Order.zero with Hash := ev.OrderHash } : Order).Get w.store with
          | .ok row => row
          | .error _ => { Order.zero with Hash := ev.OrderHash }).Hash = ev.OrderHash := by
        split
        · next row hg => exact Order_Get_hash hg
        · rfl
      show OrdersChange env w.store.orders store.orders
      rw [Order_Update_orders hs hh rfl]
      exact .filled _ vLog.Data ev hdec

theorem placeOrderLogCallback_orders (env : Env) (w : World) (vLog : Log) (isBid : Bool) :
    OrdersChange env w.store.orders
      (placeOrderLogCallback env w vLog isBid).world.store.orders := by
  unfold placeOrderLogCallback
  simp only []
  split
  · exact .same _
  · next ev hdec =>
    split
    · exact .same _
    · next store hs =>
      rw [tryOrderMatching_store]
      show OrdersChange env w.store.orders store.orders
      rcases Order_Save_orders hs with h | ⟨h, hnew⟩
      · rw [h]; exact .same _
      · rw [h]
        refine .placed _ vLog.Data isBid ev ?_ hnew
        cases isBid
        · exact Or.inr (by simpa using hdec)
        · exact Or.inl (by simpa using hdec)

theorem cancelOrderLogCallback_orders (env : Env) (w : World) (vLog : Log) :
    OrdersChange env w.store.orders (cancelOrderLogCallback env w vLog).world.store.orders := by
  unfold cancelOrderLogCallback
  split
  · exact .same _
  · next ev hdec =>
    simp only []
    split
    · exact .same _
    · next store hs =>
      have hc : store.orders = w.store.orders.map (closeRow ev.OrderHash) := Order_Close_orders hs
      split
      · show OrdersChange env w.store.orders store.orders
        rw [hc]; exact .closed _ _
      · show OrdersChange env w.store.orders store.orders
        rw [hc]; exact .closed _ _

theorem OrdersChange_of_eq (env : Env) {l l' : List Order} (h : l' = l) :
    OrdersChange env l l' := by
  rw [h]; exact .same _

theorem Handler_call_orders (env : Env) (w : World) (vLog : Log) (h : Handler) :
    OrdersChange env w.store.orders (h.call env w vLog).world.store.orders := by
  cases h with
  | balanceUpdate =>
    apply OrdersChange_of_eq
    show (balanceUpdateLogCallback env w vLog).world.store.orders = _
    unfold balanceUpdateLogCallback
    split
    · rfl
    · simp only []
      split
      · rfl
      · next hs => exact Wallet_Save_orders hs
  | placeOrder isBid => exact placeOrderLogCallback_orders env w vLog isBid
  | cancelOrder => exact cancelOrderLogCallback_orders env w vLog
  | trade =>
    apply OrdersChange_of_eq
    show (tradeLogCallback env w vLog).world.store.orders = _
    unfold tradeLogCallback
    split
    · rfl
    · simp only []
      split
      · rfl
      · split
        · rfl
        · next hs => exact Trade_Save_orders hs
  | updateFilledVolume => exact updateFilledVolumeLogCallback_orders env w vLog
  | withdrawSignSubmitted =>
    apply OrdersChange_of_eq
    show (withdrawSignSubmittedCallback env w vLog).world.store.orders = _
    unfold withdrawSignSubmittedCallback
    split
    · rfl
    · simp only []
      split
      · rfl
      · next hs => exact WithdrawSign_Save_orders hs
  | readyToWithdraw =>
    apply OrdersChange_of_eq
    show (readyToWithdrawCallback env w vLog).world.store.orders = _
    unfold readyToWithdrawCallback
    split
    · rfl
    · simp only []
      split <;> rfl
  | dexWithdraw =>
    apply OrdersChange_of_eq
    show (dexWithdrawCallback env w vLog).world.store.orders = _
    unfold dexWithdrawCallback
    split
    · rfl
    · simp only []
      split
      · rfl
      · next hs => exact WithdrawMeta_Save_orders hs
  | bridgeWithdraw =>
    apply OrdersChange_of_eq
    show (bridgeWithdrawCallback env w vLog).world.store.orders = _
    unfold bridgeWithdrawCallback
    simp only []
    split
    · rfl
    · split <;> rfl

theorem topicLoop_orders (env : Env) (vLog : Log) (topics : List common.Hash) :
    ∀ w : World, Relation.ReflTransGen (OrdersChange env) w.store.orders
      (topicLoop env vLog topics w).world.store.orders := by
  induction topics with
  | nil => intro w; exact Relation.ReflTransGen.refl
  | cons t rest ih =>
    intro w
    unfold topicLoop
    split
    · exact ih w
    · next h hsel =>
      have hstep : OrdersChange env w.store.orders (invoke env w vLog h).world.store.orders :=
        Handler_call_orders env { w with handled := w.handled ++ [h] } vLog h
      simp only []
      split
      · exact Relation.ReflTransGen.single hstep
      · exact Relation.ReflTransGen.head hstep (ih _)

theorem Arrival_handle_orders (env : Env) (w : World) (a : Arrival) :
    Relation.ReflTransGen (OrdersChange env) w.store.orders
      (a.handle env w).world.store.orders := by
  cases a with
  | exchange r =>
    cases r with
    | err e => exact Relation.ReflTransGen.refl
    | log vLog => exact topicLoop_orders env vLog _ w
  | bridge r =>
    cases r with
    | err e => exact Relation.ReflTransGen.refl
    | log vLog =>
      exact Relation.ReflTransGen.single
        (Handler_call_orders env { w with handled := w.handled ++ [.bridgeWithdraw] } vLog _)

theorem run_orders (env : Env) (arrivals : List Arrival) :
    ∀ w : World, Relation.ReflTransGen (OrdersChange env) w.store.orders
      (run env w arrivals).world.store.orders := by
  induction arrivals with
  | nil => intro w; exact Relation.ReflTransGen.refl
  | cons a rest ih =>
    intro w
    unfold run
    simp only []
    split
    · exact Arrival_handle_orders env w a
    · exact (Arrival_handle_orders env w a).trans (ih _)

theorem find_map_hash (f : Order → Order) (hf : ∀ x, (f x).Hash = x.Hash) (l : List Order)
    (k : common.Hash) :
    (l.map f).find? (fun x => decide (x.Hash = k)) =
      (l.find? (fun x => decide (x.Hash = k))).map f := by
  induction l with
  | nil => rfl
  | cons a t ih =>
    simp only [List.map_cons, List.find?_cons, hf]
    cases decide (a.Hash = k) with
    | true => rfl
    | false => exact ih

theorem fillRow_hash (ev : UpdateFilledVolumeEvent) (x : Order) : (fillRow ev x).Hash = x.Hash := by
  unfold fillRow; split <;> rfl

theorem closeRow_hash (h : common.Hash) (x : Order) : (closeRow h x).Hash = x.Hash := by
  unfold closeRow; split <;> rfl

theorem ClosedStays_refl (l : List Order) : ClosedStays l l :=
  fun _ o ho => ⟨o, ho, rfl, id⟩

theorem ClosedStays_trans {l l' l'' : List Order} (h : ClosedStays l l') (h' : ClosedStays l' l'') :
    ClosedStays l l'' := by
  intro k o ho
  obtain ⟨o', ho', hv, hc⟩ := h k o ho
  obtain ⟨o'', ho'', hv', hc'⟩ := h' k o' ho'
  exact ⟨o'', ho'', hv'.trans hv, fun hcl => hc' (hc hcl)⟩

theorem ClosedStays_step {env : Env} {l l' : List Order} (h : OrdersChange env l l') :
    ClosedStays l l' := by
  cases h with
  | same => exact ClosedStays_refl _
  | placed data isBid ev hdec hnew =>
    intro k o ho
    refine ⟨o, ?_, rfl, id⟩
    rw [List.find?_append, ho]
    rfl
  | filled data ev hdec =>
    intro k o ho
    refine ⟨fillRow ev o, ?_, ?_, ?_⟩
    · rw [find_map_hash _ (fillRow_hash ev), ho]; rfl
    · unfold fillRow; split <;> rfl
    · intro hcl
      unfold fillRow
      split
      · show (o.IsOpen && _) = false
        rw [hcl]; rfl
      · exact hcl
  | closed hsh =>
    intro k o ho
    refine ⟨closeRow hsh o, ?_, ?_, ?_⟩
    · rw [find_map_hash _ (closeRow_hash hsh), ho]; rfl
    · unfold closeRow; split <;> rfl
    · intro hcl
      unfold closeRow
      split
      · rfl
      · exact hcl

theorem ClosedStays_reach {env : Env} {l l' : List Order}
    (h : Relation.ReflTransGen (OrdersChange env) l l') : ClosedStays l l' := by
  induction h with
  | refl => exact ClosedStays_refl _
  | tail _ hstep ih => exact ClosedStays_trans ih (ClosedStays_step hstep)

theorem updateFilledVolumeLogCallback_store (env : Env) (w : World) (vLog : Log)
    (ev : UpdateFilledVolumeEvent)
    (hdec : env.ordermatcherABI.OrderFilledVolumeUpdate vLog.Data = .ok ev) :
    (updateFilledVolumeLogCallback env w vLog).world.store.orders =
        w.store.orders.map (fillRow ev) ∧
      (updateFilledVolumeLogCallback env w vLog).fatal = none := by
  unfold updateFilledVolumeLogCallback
  simp only [hdec]
  split
  · next err hs => unfold Order.Update at hs; cases hs
  · next store hs =>
    have hh : (match ({ Order.zero with Hash := ev.OrderHash } : Order).Get w.store with
        | .ok row => row
        | .error _ => { Order.zero with Hash := ev.OrderHash }).Hash = ev.OrderHash := by
      split
      · next row hg => exact Order_Get_hash hg
      · rfl
    exact ⟨Order_Update_orders hs hh rfl, rfl⟩

theorem cancelOrderLogCallback_store (env : Env) (w : World) (vLog : Log) (ev : CancelOrderEvent)
    (o : Order) (hdec : env.orderbookABI.CancelOrder vLog.Data = .ok ev)
    (ho : orderOf w.store ev.OrderHash = some o) :
    (cancelOrderLogCallback env w vLog).world.store.orders =
        w.store.orders.map (closeRow ev.OrderHash) ∧
      (cancelOrderLogCallback env w vLog).fatal = none ∧
      (cancelOrderLogCallback env w vLog).world.published =
        w.published ++ [(channelKey env o.Token o.Base,
          { MessageType := "CANCEL_ORDER", Payload := .order (closeRow ev.OrderHash o) })] := by
  have hfind : (w.store.orders.map (closeRow ev.OrderHash)).find?
      (fun x => decide (x.Hash = ev.OrderHash)) = some (closeRow ev.OrderHash o) := by
    unfold orderOf at ho
    rw [find_map_hash _ (closeRow_hash ev.OrderHash), ho]; rfl
  have htb : (closeRow ev.OrderHash o).Token = o.Token ∧ (closeRow ev.OrderHash o).Base = o.Base := by
    unfold closeRow; split <;> exact ⟨rfl, rfl⟩
  have hclose : ({ Order.zero with Hash := ev.OrderHash } : Order).Close w.store =
      .ok { w.store with orders := w.store.orders.map (closeRow ev.OrderHash) } := rfl
  have hget : ({ Order.zero with Hash := ev.OrderHash } : Order).Get
      { w.store with orders := w.store.orders.map (closeRow ev.OrderHash) } =
        .ok (closeRow ev.OrderHash o) := by
    unfold Order.Get
    simp only [hfind]
  unfold cancelOrderLogCallback
  simp only [hdec, hclose, hget, htb.1, htb.2]
  refine ⟨?_, ?_, ?_⟩ <;> first | rfl | trivial

/-! ## The invariant of the stored orders: lemmas -/

theorem cancelledHashes_of_published {w w' : World} (h : w'.published = w.published) :
    cancelledHashes w' = cancelledHashes w := by
  unfold cancelledHashes
  rw [h]

theorem cancelledHashes_Publish_other (w : World) (k : String) (msg : redisChannelMessage)
    (h : msg.MessageType ≠ "CANCEL_ORDER") :
    cancelledHashes (Publish w k msg) = cancelledHashes w := by
  unfold cancelledHashes Publish
  simp only [List.filterMap_append, List.filterMap_cons, List.filterMap_nil, if_neg h,
    List.append_nil]

theorem cancelledHashes_Publish_cancel (w : World) (k : String) (o : Order) :
    cancelledHashes (Publish w k { MessageType := "CANCEL_ORDER", Payload := .order o }) =
      cancelledHashes w ++ [o.Hash] := by
  unfold cancelledHashes Publish
  simp only [List.filterMap_append, List.filterMap_cons, List.filterMap_nil, if_true]

theorem submission_published (env : Env) (w : World) (order c : Order) :
    (submission env w order c).world.published = w.published := by
  rw [submission_eq]
  split
  · rfl
  · split <;> rfl

theorem matchLoop_published (env : Env) (order : Order) (cands : List Order) :
    ∀ (w : World) (v : Int), (matchLoop env order cands w v).world.published = w.published := by
  induction cands with
  | nil => intro w v; rfl
  | cons c rest ih =>
    intro w v
    rw [matchLoop_cons]
    split
    · exact ih w v
    · split
      · exact submission_published env w order c
      · split
        · split
          · rw [ih]; exact submission_published env w order c
          · exact submission_published env w order c
        · rw [ih]; exact submission_published env w order c

theorem tryOrderMatching_published (env : Env) (w : World) (order : Order) :
    (tryOrderMatching env w order).world.published = w.published := by
  unfold tryOrderMatching tryOrderMatchingRun
  simp only []
  split
  · rfl
  · exact matchLoop_published _ _ _ _ _

theorem BookInv_placed {l : List Order} {cs : List common.Hash} (ev : PlaceOrderEvent)
    (isBid : Bool) (hinv : BookInv l cs) (hnew : ∀ x ∈ l, x.Hash ≠ ev.OrderHash)
    (hpos : 0 < ev.Price * ev.Quantity) :
    BookInv (l ++ [storedRow (newOrder ev isBid)]) cs := by
  have hvol : (storedRow (newOrder ev isBid)).Volume = ((ev.Price * ev.Quantity : Nat) : Int) := by
    show (ev.Price : Int) * (ev.Quantity : Int) = _
    exact (Nat.cast_mul _ _).symm
  have hpos' : (0 : Int) < (storedRow (newOrder ev isBid)).Volume := by
    rw [hvol]; exact_mod_cast hpos
  constructor
  · intro o ho
    rcases List.mem_append.mp ho with ho | ho
    · exact hinv.1 o ho
    · rw [List.mem_singleton] at ho
      subst ho
      refine ⟨le_refl _, le_of_lt hpos', ?_⟩
      constructor
      · intro _
        refine ⟨hpos', ?_⟩
        intro hc
        obtain ⟨x, hx, hxh⟩ := hinv.2 _ hc
        exact hnew x hx hxh
      · intro _; rfl
  · intro h hh
    obtain ⟨x, hx, hxh⟩ := hinv.2 h hh
    exact ⟨x, List.mem_append_left _ hx, hxh⟩

theorem BookInv_filled {l : List Order} {cs : List common.Hash} (ev : UpdateFilledVolumeEvent)
    (hinv : BookInv l cs)
    (hadm : ∀ o ∈ l, o.Hash = ev.OrderHash →
      o.VolumeFilled ≤ (ev.Volume : Int) ∧ (ev.Volume : Int) ≤ o.Volume) :
    BookInv (l.map (fillRow ev)) cs := by
  constructor
  · intro o ho
    obtain ⟨x, hx, hxo⟩ := List.mem_map.mp ho
    subst hxo
    obtain ⟨h0, h1, hopen⟩ := hinv.1 x hx
    by_cases hh : x.Hash = ev.OrderHash
    · obtain ⟨hlo, hhi⟩ := hadm x hx hh
      have hrow : fillRow ev x =
          { x with VolumeFilled := (ev.Volume : Int)
                   VolumeLeft := x.Volume - (ev.Volume : Int)
                   IsOpen := x.IsOpen && decide (x.Volume - (ev.Volume : Int) ≠ 0) } := by
        unfold fillRow; rw [if_pos hh]
      rw [hrow]
      refine ⟨Int.natCast_nonneg _, hhi, ?_⟩
      show (x.IsOpen && decide (x.Volume - (ev.Volume : Int) ≠ 0)) = true ↔
        ((ev.Volume : Int) < x.Volume ∧ x.Hash ∉ cs)
      rw [Bool.and_eq_true, decide_eq_true_iff, hopen]
      constructor
      · rintro ⟨⟨_, hnc⟩, hne⟩
        exact ⟨lt_of_le_of_ne hhi (fun h => hne (by rw [h, sub_self])), hnc⟩
      · rintro ⟨hlt, hnc⟩
        exact ⟨⟨lt_of_le_of_lt hlo hlt, hnc⟩, fun h => absurd (sub_eq_zero.mp h) (ne_of_gt hlt)⟩
    · have hrow : fillRow ev x = x := by unfold fillRow; rw [if_neg hh]
      rw [hrow]
      exact ⟨h0, h1, hopen⟩
  · intro h hh
    obtain ⟨x, hx, hxh⟩ := hinv.2 h hh
    exact ⟨fillRow ev x, List.mem_map_of_mem _ hx, (fillRow_hash ev x).trans hxh⟩

theorem BookInv_closed {l : List Order} {cs : List common.Hash} (h : common.Hash)
    (hinv : BookInv l cs) (hstored : ∃ o ∈ l, o.Hash = h) :
    BookInv (l.map (closeRow h)) (cs ++ [h]) := by
  constructor
  · intro o ho
    obtain ⟨x, hx, hxo⟩ := List.mem_map.mp ho
    subst hxo
    obtain ⟨h0, h1, hopen⟩ := hinv.1 x hx
    by_cases hh : x.Hash = h
    · have hrow : closeRow h x = { x with IsOpen := false } := by
        unfold closeRow; rw [if_pos hh]
      rw [hrow]
      refine ⟨h0, h1, ?_⟩
      constructor
      · intro hf; cases hf
      · rintro ⟨_, hnc⟩
        exact absurd (List.mem_append_right cs (List.mem_singleton.mpr hh)) hnc
    · have hrow : closeRow h x = x := by unfold closeRow; rw [if_neg hh]
      rw [hrow]
      refine ⟨h0, h1, ?_⟩
      rw [hopen]
      constructor
      · rintro ⟨hlt, hnc⟩
        refine ⟨hlt, fun hm => ?_⟩
        rcases List.mem_append.mp hm with hm | hm
        · exact hnc hm
        · exact hh (List.mem_singleton.mp hm)
      · rintro ⟨hlt, hnc⟩
        exact ⟨hlt, fun hm => hnc (List.mem_append_left _ hm)⟩
  · intro k hk
    rcases List.mem_append.mp hk with hk | hk
    · obtain ⟨x, hx, hxh⟩ := hinv.2 k hk
      exact ⟨closeRow h x, List.mem_map_of_mem _ hx, (closeRow_hash h x).trans hxh⟩
    · rw [List.mem_singleton] at hk
      subst hk
      obtain ⟨x, hx, hxh⟩ := hstored
      exact ⟨closeRow k x, List.mem_map_of_mem _ hx, (closeRow_hash k x).trans hxh⟩

theorem TRADE_ne_CANCEL : ("TRADE" : String) ≠ "CANCEL_ORDER" := by decide

theorem NEW_ORDER_ne_CANCEL : ("NEW_ORDER" : String) ≠ "CANCEL_ORDER" := by decide

theorem ORDER_FILL_ne_CANCEL : ("ORDER_FILL" : String) ≠ "CANCEL_ORDER" := by decide

theorem OrderInv_of_frame {w w' : World} (ho : w'.store.orders = w.store.orders)
    (hc : cancelledHashes w' = cancelledHashes w) (hinv : OrderInv w) : OrderInv w' := by
  unfold OrderInv at hinv ⊢
  rw [ho, hc]
  exact hinv

theorem quiet_handlers_frame (env : Env) (w : World) (vLog : Log) (h : Handler)
    (hp : ∀ isBid, h ≠ .placeOrder isBid) (hc : h ≠ .cancelOrder)
    (hu : h ≠ .updateFilledVolume) :
    (h.call env w vLog).world.store.orders = w.store.orders ∧
      cancelledHashes (h.call env w vLog).world = cancelledHashes w := by
  cases h with
  | balanceUpdate =>
    show (balanceUpdateLogCallback env w vLog).world.store.orders = _ ∧
      cancelledHashes (balanceUpdateLogCallback env w vLog).world = _
    unfold balanceUpdateLogCallback
    split
    · exact ⟨rfl, rfl⟩
    · simp only []
      split
      · exact ⟨rfl, rfl⟩
      · next hs => exact ⟨Wallet_Save_orders hs, rfl⟩
  | placeOrder isBid => exact absurd rfl (hp isBid)
  | cancelOrder => exact absurd rfl hc
  | trade =>
    show (tradeLogCallback env w vLog).world.store.orders = _ ∧
      cancelledHashes (tradeLogCallback env w vLog).world = _
    unfold tradeLogCallback
    split
    · exact ⟨rfl, rfl⟩
    · simp only []
      split
      · exact ⟨rfl, rfl⟩
      · split
        · exact ⟨rfl, rfl⟩
        · next store hs =>
          refine ⟨Trade_Save_orders hs, ?_⟩
          show cancelledHashes (Publish _ _ _) = _
          rw [cancelledHashes_Publish_other _ _ _ TRADE_ne_CANCEL]
          rfl
  | updateFilledVolume => exact absurd rfl hu
  | withdrawSignSubmitted =>
    show (withdrawSignSubmittedCallback env w vLog).world.store.orders = _ ∧
      cancelledHashes (withdrawSignSubmittedCallback env w vLog).world = _
    unfold withdrawSignSubmittedCallback
    split
    · exact ⟨rfl, rfl⟩
    · simp only []
      split
      · exact ⟨rfl, rfl⟩
      · next hs => exact ⟨WithdrawSign_Save_orders hs, rfl⟩
  | readyToWithdraw =>
    show (readyToWithdrawCallback env w vLog).world.store.orders = _ ∧
      cancelledHashes (readyToWithdrawCallback env w vLog).world = _
    unfold readyToWithdrawCallback
    split
    · exact ⟨rfl, rfl⟩
    · simp only []
      split <;> exact ⟨rfl, rfl⟩
  | dexWithdraw =>
    show (dexWithdrawCallback env w vLog).world.store.orders = _ ∧
      cancelledHashes (dexWithdrawCallback env w vLog).world = _
    unfold dexWithdrawCallback
    split
    · exact ⟨rfl, rfl⟩
    · simp only []
      split
      · exact ⟨rfl, rfl⟩
      · next hs => exact ⟨WithdrawMeta_Save_orders hs, rfl⟩
  | bridgeWithdraw =>
    show (bridgeWithdrawCallback env w vLog).world.store.orders = _ ∧
      cancelledHashes (bridgeWithdrawCallback env w vLog).world = _
    unfold bridgeWithdrawCallback
    simp only []
    split
    · exact ⟨rfl, rfl⟩
    · split <;> exact ⟨rfl, rfl⟩

theorem placeOrderLogCallback_inv (env : Env) (w : World) (vLog : Log) (isBid : Bool)
    (hinv : OrderInv w) (hadm : Handler.admissible env w vLog (.placeOrder isBid) = true) :
    OrderInv (placeOrderLogCallback env w vLog isBid).world := by
  unfold placeOrderLogCallback
  simp only []
  split
  · exact hinv
  · next ev hdec =>
    split
    · exact hinv
    · next store hs =>
      have hpos : 0 < ev.Price * ev.Quantity := by
        have h := hadm
        unfold Handler.admissible at h
        simp only [hdec] at h
        exact of_decide_eq_true h
      unfold OrderInv
      rw [tryOrderMatching_store, cancelledHashes_of_published (tryOrderMatching_published _ _ _)]
      show BookInv store.orders (cancelledHashes (Publish _ _ _))
      rw [cancelledHashes_Publish_other _ _ _ NEW_ORDER_ne_CANCEL]
      show BookInv store.orders (cancelledHashes w)
      rcases Order_Save_orders hs with h | ⟨h, hnew⟩
      · rw [h]; exact hinv
      · rw [h]; exact BookInv_placed ev isBid hinv hnew hpos

theorem updateFilledVolumeLogCallback_cancelled (env : Env) (w : World) (vLog : Log) :
    cancelledHashes (updateFilledVolumeLogCallback env w vLog).world = cancelledHashes w := by
  unfold updateFilledVolumeLogCallback
  split
  · rfl
  · simp only []
    split
    · rfl
    · show cancelledHashes (Publish _ _ _) = _
      rw [cancelledHashes_Publish_other _ _ _ ORDER_FILL_ne_CANCEL]
      rfl

theorem updateFilledVolumeLogCallback_inv (env : Env) (w : World) (vLog : Log)
    (hinv : OrderInv w) (hadm : Handler.admissible env w vLog .updateFilledVolume = true) :
    OrderInv (updateFilledVolumeLogCallback env w vLog).world := by
  cases hdec : env.ordermatcherABI.OrderFilledVolumeUpdate vLog.Data with
  | error err =>
    have hw : updateFilledVolumeLogCallback env w vLog = Fatal w ("Unpack: " ++ err) := by
      unfold updateFilledVolumeLogCallback
      simp only [hdec]
    rw [hw]
    exact hinv
  | ok ev =>
    have hall : ∀ o ∈ w.store.orders, o.Hash = ev.OrderHash →
        o.VolumeFilled ≤ (ev.Volume : Int) ∧ (ev.Volume : Int) ≤ o.Volume := by
      have h := hadm
      unfold Handler.admissible at h
      simp only [hdec] at h
      intro o ho
      exact of_decide_eq_true (List.all_eq_true.mp h o ho)
    unfold OrderInv
    rw [(updateFilledVolumeLogCallback_store env w vLog ev hdec).1,
      updateFilledVolumeLogCallback_cancelled]
    exact BookInv_filled ev hinv hall

theorem cancelOrderLogCallback_absent (env : Env) (w : World) (vLog : Log)
    (ev : CancelOrderEvent) (hdec : env.orderbookABI.CancelOrder vLog.Data = .ok ev)
    (habs : orderOf w.store ev.OrderHash = none) :
    (cancelOrderLogCallback env w vLog).world.store = w.store ∧
      (cancelOrderLogCallback env w vLog).world.published = w.published := by
  have hmap : w.store.orders.map (fun x =>
      if x.Hash = ev.OrderHash then { x with IsOpen := false } else x) = w.store.orders :=
    map_absent _ ev.OrderHash _ (fun x hx => if_neg hx) (orderOf_absent habs)
  have hclose : ({ Order.zero with Hash := ev.OrderHash } : Order).Close w.store = .ok w.store := by
    unfold Order.Close
    simp only [hmap]
  have hget : ({ Order.zero with Hash := ev.OrderHash } : Order).Get w.store =
      .error "order not found" := by
    unfold Order.Get
    unfold orderOf at habs
    simp only [habs]
  unfold cancelOrderLogCallback
  simp only [hdec, hclose, hget, Fatal]
  refine ⟨?_, ?_⟩ <;> first | rfl | trivial

theorem cancelOrderLogCallback_inv (env : Env) (w : World) (vLog : Log) (hinv : OrderInv w) :
    OrderInv (cancelOrderLogCallback env w vLog).world := by
  cases hdec : env.orderbookABI.CancelOrder vLog.Data with
  | error err =>
    have hw : cancelOrderLogCallback env w vLog = Fatal w ("Unpack: " ++ err) := by
      unfold cancelOrderLogCallback
      simp only [hdec]
    rw [hw]
    exact hinv
  | ok ev =>
    cases ho : orderOf w.store ev.OrderHash with
    | none =>
      obtain ⟨h1, h2⟩ := cancelOrderLogCallback_absent env w vLog ev hdec ho
      exact OrderInv_of_frame (by rw [h1]) (cancelledHashes_of_published h2) hinv
    | some o =>
      obtain ⟨h1, _, h3⟩ := cancelOrderLogCallback_store env w vLog ev o hdec ho
      have hmem : o ∈ w.store.orders := by
        unfold orderOf at ho
        exact List.mem_of_find?_eq_some ho
      have hh : o.Hash = ev.OrderHash := by
        unfold orderOf at ho
        have := List.find?_some ho
        simpa using this
      have hcs : cancelledHashes (cancelOrderLogCallback env w vLog).world =
          cancelledHashes w ++ [ev.OrderHash] := by
        have := cancelledHashes_Publish_cancel w (channelKey env o.Token o.Base)
          (closeRow ev.OrderHash o)
        rw [closeRow_hash, hh] at this
        rw [← this]
        exact cancelledHashes_of_published h3
      unfold OrderInv
      rw [h1, hcs]
      exact BookInv_closed ev.OrderHash hinv ⟨o, hmem, hh⟩

theorem Handler_call_inv (env : Env) (w : World) (vLog : Log) (h : Handler)
    (hinv : OrderInv w) (hadm : h.admissible env w vLog = true) :
    OrderInv (h.call env w vLog).world := by
  by_cases hp : ∃ isBid, h = .placeOrder isBid
  · obtain ⟨isBid, rfl⟩ := hp
    exact placeOrderLogCallback_inv env w vLog isBid hinv hadm
  · by_cases hc : h = .cancelOrder
    · subst hc
      exact cancelOrderLogCallback_inv env w vLog hinv
    · by_cases hu : h = .updateFilledVolume
      · subst hu
        exact updateFilledVolumeLogCallback_inv env w vLog hinv hadm
      · obtain ⟨h1, h2⟩ := quiet_handlers_frame env w vLog h
          (fun isBid hb => hp ⟨isBid, hb⟩) hc hu
        exact OrderInv_of_frame h1 h2 hinv

theorem topicLoop_inv (env : Env) (vLog : Log) (topics : List common.Hash) :
    ∀ w : World, OrderInv w → topicsAdmissible env vLog topics w = true →
      OrderInv (topicLoop env vLog topics w).world := by
  induction topics with
  | nil => intro w hinv _; exact hinv
  | cons t rest ih =>
    intro w hinv hadm
    unfold topicsAdmissible at hadm
    unfold topicLoop
    split
    · next hsel =>
      rw [hsel] at hadm
      exact ih w hinv hadm
    · next h hsel =>
      rw [hsel] at hadm
      simp only [Bool.and_eq_true] at hadm
      have hstep : OrderInv (invoke env w vLog h).world :=
        Handler_call_inv env { w with handled := w.handled ++ [h] } vLog h hinv hadm.1
      simp only []
      split
      · exact hstep
      · next hf =>
        have hrest := hadm.2
        rw [hf] at hrest
        exact ih _ hstep hrest

theorem Arrival_handle_inv (env : Env) (w : World) (a : Arrival) (hinv : OrderInv w)
    (hadm : a.admissible env w = true) : OrderInv (a.handle env w).world := by
  cases a with
  | exchange r =>
    cases r with
    | err e => exact hinv
    | log vLog => exact topicLoop_inv env vLog _ w hinv hadm
  | bridge r =>
    cases r with
    | err e => exact hinv
    | log vLog =>
      exact Handler_call_inv env { w with handled := w.handled ++ [.bridgeWithdraw] } vLog
        .bridgeWithdraw hinv rfl

theorem run_inv (env : Env) (arrivals : List Arrival) :
    ∀ w : World, OrderInv w → runAdmissible env w arrivals = true →
      OrderInv (run env w arrivals).world := by
  induction arrivals with
  | nil => intro w hinv _; exact hinv
  | cons a rest ih =>
    intro w hinv hadm
    unfold runAdmissible at hadm
    simp only [Bool.and_eq_true] at hadm
    have hstep := Arrival_handle_inv env w a hinv hadm.1
    unfold run
    simp only []
    split
    · exact hstep
    · next hf =>
      have hrest := hadm.2
      rw [hf] at hrest
      exact ih _ hstep hrest

theorem OrderInv_empty : OrderInv {} :=
  ⟨fun o ho => absurd ho (List.not_mem_nil o), fun h hh => absurd hh (List.not_mem_nil h)⟩

/-! ## The invariant of the stored orders: claims -/

/-- C7, counterexample.  On the empty store, with the bid 0xAA of price 2 and
quantity 3 placed: (1) after `OrderFilledVolumeUpdate(0xAA, 7)` the stored
order has volume 6 and volume_filled 7, and is open; (2) after
`OrderFilledVolumeUpdate(0xAA, 6)` and then `OrderFilledVolumeUpdate(0xAA, 3)`
the stored order has volume_filled 3 below its volume 6 and was never
cancelled, and is not open.  (3) A bid placed with price 0 is stored open
with volume 0 and volume_filled 0: open although volume_filled is not below
volume. -/
theorem C7_filled_volume_beyond_volume :
    ((orderOf (run sampleEnv {} [.exchange (.log samplePlaceLog),
            .exchange (.log sampleFill7Log)]).world.store 0xAA).map
          (fun o => (o.Volume, o.VolumeFilled, o.IsOpen)) = some (6, 7, true) ∧
        (run sampleEnv {} [.exchange (.log samplePlaceLog),
            .exchange (.log sampleFill7Log)]).fatal = none) ∧
      ((orderOf (run sampleEnv {} [.exchange (.log samplePlaceLog),
            .exchange (.log sampleFill6Log), .exchange (.log sampleFill3Log)]).world.store
            0xAA).map
          (fun o => (o.Volume, o.VolumeFilled, o.IsOpen)) = some (6, 3, false) ∧
        cancelledHashes (run sampleEnv {} [.exchange (.log samplePlaceLog),
            .exchange (.log sampleFill6Log), .exchange (.log sampleFill3Log)]).world = [] ∧
        (run sampleEnv {} [.exchange (.log samplePlaceLog),
            .exchange (.log sampleFill6Log), .exchange (.log sampleFill3Log)]).fatal = none) ∧
      (orderOf (run sampleEnv {} [.exchange (.log sampleZeroPriceLog)]).world.store 0xA0).map
        (fun o => (o.Volume, o.VolumeFilled, o.IsOpen)) = some (0, 0, true) := by
  decide

/-- C7, amended.  (1) From every world in which every stored order has
`0 ≤ volume_filled ≤ volume` and is open exactly when `volume_filled < volume`
and it was not cancelled, the same holds after every sequence of arrivals
whose handled events are admissible: each place event has a positive volume
and each `OrderFilledVolumeUpdate(hash, v)` has `v` at least the stored
volume_filled and at most the volume of the stored order it names.  (2) The
handler of `OrderFilledVolumeUpdate(hash, v)` on a stored order stores `v` as
volume_filled, whatever `v` is, and leaves the volume, so the stored
volume_filled does not exceed the volume when `v` does not; when `v` equals
the volume the stored order is no longer open.  (3) The handler of
`CancelOrder` on a stored order leaves it not open and cancelled.  (4) Along
every sequence of arrivals a stored order stays stored with its volume, and
once not open it is never open again. -/
theorem C7_order_volume_bounds (env : Env) (w : World) :
    (OrderInv w → ∀ arrivals : List Arrival, runAdmissible env w arrivals = true →
        OrderInv (run env w arrivals).world) ∧
      (∀ (vLog : Log) (ev : UpdateFilledVolumeEvent) (o : Order),
        env.ordermatcherABI.OrderFilledVolumeUpdate vLog.Data = .ok ev →
        orderOf w.store ev.OrderHash = some o →
        ∃ o', orderOf (updateFilledVolumeLogCallback env w vLog).world.store ev.OrderHash =
            some o' ∧
          o'.VolumeFilled = (ev.Volume : Int) ∧ o'.Volume = o.Volume ∧
          ((ev.Volume : Int) ≤ o.Volume → o'.VolumeFilled ≤ o'.Volume) ∧
          ((ev.Volume : Int) = o.Volume → o'.IsOpen = false)) ∧
      (∀ (vLog : Log) (ev : CancelOrderEvent) (o : Order),
        env.orderbookABI.CancelOrder vLog.Data = .ok ev →
        orderOf w.store ev.OrderHash = some o →
        ∃ o', orderOf (cancelOrderLogCallback env w vLog).world.store ev.OrderHash = some o' ∧
          o'.IsOpen = false ∧ o'.Volume = o.Volume ∧ o'.VolumeFilled = o.VolumeFilled ∧
          ev.OrderHash ∈ cancelledHashes (cancelOrderLogCallback env w vLog).world) ∧
      (∀ arrivals : List Arrival,
        ClosedStays w.store.orders (run env w arrivals).world.store.orders) := by
  refine ⟨?_, ?_, ?_, ?_⟩
  · intro hinv arrivals hadm
    exact run_inv env arrivals w hinv hadm
  · intro vLog ev o hdec ho
    have hh : o.Hash = ev.OrderHash := by
      unfold orderOf at ho
      have := List.find?_some ho
      simpa using this
    have hvf : (fillRow ev o).VolumeFilled = (ev.Volume : Int) := by
      unfold fillRow; rw [if_pos hh]
    have hvol : (fillRow ev o).Volume = o.Volume := by
      unfold fillRow; split <;> rfl
    refine ⟨fillRow ev o, ?_, hvf, hvol, ?_, ?_⟩
    · unfold orderOf at ho ⊢
      rw [(updateFilledVolumeLogCallback_store env w vLog ev hdec).1,
        find_map_hash _ (fillRow_hash ev), ho]
      rfl
    · intro hle
      rw [hvf, hvol]
      exact hle
    · intro hv
      unfold fillRow
      rw [if_pos hh]
      show (o.IsOpen && decide (o.Volume - (ev.Volume : Int) ≠ 0)) = false
      rw [hv, sub_self]
      simp
  · intro vLog ev o hdec ho
    have hh : o.Hash = ev.OrderHash := by
      unfold orderOf at ho
      have := List.find?_some ho
      simpa using this
    obtain ⟨h1, _, h3⟩ := cancelOrderLogCallback_store env w vLog ev o hdec ho
    refine ⟨closeRow ev.OrderHash o, ?_, ?_, ?_, ?_, ?_⟩
    · unfold orderOf at ho ⊢
      rw [h1, find_map_hash _ (closeRow_hash ev.OrderHash), ho]
      rfl
    · unfold closeRow; rw [if_pos hh]
    · unfold closeRow; split <;> rfl
    · unfold closeRow; split <;> rfl
    · have hcs := cancelledHashes_Publish_cancel w (channelKey env o.Token o.Base)
        (closeRow ev.OrderHash o)
      rw [closeRow_hash, hh] at hcs
      have h4 : (cancelOrderLogCallback env w vLog).world.published =
          (Publish w (channelKey env o.Token o.Base)
            { MessageType := "CANCEL_ORDER",
              Payload := .order (closeRow ev.OrderHash o) }).published := h3
      rw [cancelledHashes_of_published h4, hcs]
      exact List.mem_append_right _ (List.mem_singleton_self _)
  · intro arrivals
    exact ClosedStays_reach (run_orders env arrivals w)

/-- C7, witness: on the empty store the bid 0xAA of volume 6 is placed, filled
with 3, filled with 6 and cancelled; the fill with 6 and the cancel of the
stored bid. -/
theorem C7_order_volume_bounds_witness :
    runAdmissible sampleEnv {} [.exchange (.log samplePlaceLog),
        .exchange (.log sampleFill3Log), .exchange (.log sampleFill6Log),
        .exchange (.log sampleCancelLog)] = true ∧
      OrderInv (run sampleEnv {} [.exchange (.log samplePlaceLog),
        .exchange (.log sampleFill3Log), .exchange (.log sampleFill6Log),
        .exchange (.log sampleCancelLog)]).world ∧
      (∃ o', orderOf (updateFilledVolumeLogCallback sampleEnv samplePlaced
            sampleFill6Log).world.store sampleFill6Event.OrderHash = some o' ∧
          o'.VolumeFilled = (sampleFill6Event.Volume : Int) ∧
          o'.Volume = (storedRow (newOrder samplePlaceEvent true)).Volume ∧
          ((sampleFill6Event.Volume : Int) ≤ (storedRow (newOrder samplePlaceEvent true)).Volume →
            o'.VolumeFilled ≤ o'.Volume) ∧
          ((sampleFill6Event.Volume : Int) = (storedRow (newOrder samplePlaceEvent true)).Volume →
            o'.IsOpen = false)) ∧
      (∃ o', orderOf (cancelOrderLogCallback sampleEnv samplePlaced sampleCancelLog).world.store
            0xAA = some o' ∧
          o'.IsOpen = false ∧ o'.Volume = (storedRow (newOrder samplePlaceEvent true)).Volume ∧
          o'.VolumeFilled = (storedRow (newOrder samplePlaceEvent true)).VolumeFilled ∧
          0xAA ∈ cancelledHashes
            (cancelOrderLogCallback sampleEnv samplePlaced sampleCancelLog).world) ∧
      ClosedStays samplePlaced.store.orders
        (run sampleEnv samplePlaced [.exchange (.log sampleCancelLog)]).world.store.orders ∧
      (orderOf (run sampleEnv {} [.exchange (.log samplePlaceLog),
          .exchange (.log sampleFill3Log), .exchange (.log sampleFill6Log),
          .exchange (.log sampleCancelLog)]).world.store 0xAA).map
        (fun o => (o.Volume, o.VolumeFilled, o.IsOpen)) = some (6, 6, false) :=
  ⟨by decide,
    (C7_order_volume_bounds sampleEnv {}).1 OrderInv_empty
      [.exchange (.log samplePlaceLog), .exchange (.log sampleFill3Log),
        .exchange (.log sampleFill6Log), .exchange (.log sampleCancelLog)] (by decide),
    (C7_order_volume_bounds sampleEnv samplePlaced).2.1 sampleFill6Log sampleFill6Event
      (storedRow (newOrder samplePlaceEvent true)) rfl (by decide),
    (C7_order_volume_bounds sampleEnv samplePlaced).2.2.1 sampleCancelLog { OrderHash := 0xAA }
      (storedRow (newOrder samplePlaceEvent true)) rfl (by decide),
    (C7_order_volume_bounds sampleEnv samplePlaced).2.2.2
      [.exchange (.log sampleCancelLog)],
    by decide⟩

/-! ## The arguments of the match transaction: lemmas -/

theorem submission_sent_args (env : Env) (w : World) (order c : Order) :
    ∃ txs, (submission env w order c).world.sent = w.sent ++ txs ∧
      ∀ tx ∈ txs, (tx.BuyOrderHash, tx.SellOrderHash) =
        if order.IsBid then (order.Hash, c.Hash) else (c.Hash, order.Hash) := by
  rw [submission_eq]
  split
  · exact ⟨[], (List.append_nil _).symm, fun tx htx => absurd htx (List.not_mem_nil tx)⟩
  · split
    · exact ⟨[], (List.append_nil _).symm, fun tx htx => absurd htx (List.not_mem_nil tx)⟩
    · refine ⟨[_], rfl, ?_⟩
      intro tx htx
      rw [List.mem_singleton] at htx
      subst htx
      show ((submissionArgs order c).1, (submissionArgs order c).2) = _
      unfold submissionArgs
      split <;> rfl

theorem matchLoop_calls (env : Env) (order : Order) (cands : List Order) :
    ∀ (w : World) (v : Int), ∃ calls,
      (matchLoop env order cands w v).world.submitCalls = w.submitCalls ++ calls ∧
        ∀ p ∈ calls, ∃ c ∈ cands,
          p = if order.IsBid then (order.Hash, c.Hash) else (c.Hash, order.Hash) := by
  induction cands with
  | nil =>
    intro w v
    exact ⟨[], (List.append_nil _).symm, fun p hp => absurd hp (List.not_mem_nil p)⟩
  | cons c rest ih =>
    intro w v
    have hs : (submission env w order c).world.submitCalls =
        w.submitCalls ++ [if order.IsBid then (order.Hash, c.Hash) else (c.Hash, order.Hash)] :=
      submission_submitCalls env w order c
    have hone : ∀ p ∈ [if order.IsBid then (order.Hash, c.Hash) else (c.Hash, order.Hash)],
        ∃ c' ∈ c :: rest,
          p = if order.IsBid then (order.Hash, c'.Hash) else (c'.Hash, order.Hash) :=
      fun p hp => ⟨c, List.mem_cons_self _ _, List.mem_singleton.mp hp⟩
    have hmore : ∀ (w' : World) (v' : Int),
        w'.submitCalls = (submission env w order c).world.submitCalls →
        ∃ calls, (matchLoop env order rest w' v').world.submitCalls = w.submitCalls ++ calls ∧
          ∀ p ∈ calls, ∃ c' ∈ c :: rest,
            p = if order.IsBid then (order.Hash, c'.Hash) else (c'.Hash, order.Hash) := by
      intro w' v' hw'
      obtain ⟨calls, h1, h2⟩ := ih w' v'
      refine ⟨[if order.IsBid then (order.Hash, c.Hash) else (c.Hash, order.Hash)] ++ calls,
        ?_, ?_⟩
      · rw [h1, hw', hs, List.append_assoc]
      · intro p hp
        rcases List.mem_append.mp hp with hp | hp
        · exact hone p hp
        · obtain ⟨c', hc', hpc⟩ := h2 p hp
          exact ⟨c', List.mem_cons_of_mem _ hc', hpc⟩
    rw [matchLoop_cons]
    split
    · obtain ⟨calls, h1, h2⟩ := ih w v
      refine ⟨calls, h1, fun p hp => ?_⟩
      obtain ⟨c', hc', hpc⟩ := h2 p hp
      exact ⟨c', List.mem_cons_of_mem _ hc', hpc⟩
    · split
      · exact ⟨_, hs, hone⟩
      · split
        · split
          · exact hmore _ _ rfl
          · exact ⟨_, hs, hone⟩
        · exact hmore _ _ rfl

theorem matchLoop_txs (env : Env) (order : Order) (cands : List Order) :
    ∀ (w : World) (v : Int), ∃ txs,
      (matchLoop env order cands w v).world.sent = w.sent ++ txs ∧
        ∀ tx ∈ txs, ∃ c ∈ cands, (tx.BuyOrderHash, tx.SellOrderHash) =
          if order.IsBid then (order.Hash, c.Hash) else (c.Hash, order.Hash) := by
  induction cands with
  | nil =>
    intro w v
    exact ⟨[], (List.append_nil _).symm, fun p hp => absurd hp (List.not_mem_nil p)⟩
  | cons c rest ih =>
    intro w v
    obtain ⟨stx, hs, hsargs⟩ := submission_sent_args env w order c
    have hone : ∀ tx ∈ stx, ∃ c' ∈ c :: rest, (tx.BuyOrderHash, tx.SellOrderHash) =
        if order.IsBid then (order.Hash, c'.Hash) else (c'.Hash, order.Hash) :=
      fun tx htx => ⟨c, List.mem_cons_self _ _, hsargs tx htx⟩
    have hmore : ∀ (w' : World) (v' : Int),
        w'.sent = (submission env w order c).world.sent →
        ∃ txs, (matchLoop env order rest w' v').world.sent = w.sent ++ txs ∧
          ∀ tx ∈ txs, ∃ c' ∈ c :: rest, (tx.BuyOrderHash, tx.SellOrderHash) =
            if order.IsBid then (order.Hash, c'.Hash) else (c'.Hash, order.Hash) := by
      intro w' v' hw'
      obtain ⟨txs, h1, h2⟩ := ih w' v'
      refine ⟨stx ++ txs, ?_, ?_⟩
      · rw [h1, hw', hs, List.append_assoc]
      · intro tx htx
        rcases List.mem_append.mp htx with htx | htx
        · exact hone tx htx
        · obtain ⟨c', hc', hpc⟩ := h2 tx htx
          exact ⟨c', List.mem_cons_of_mem _ hc', hpc⟩
    rw [matchLoop_cons]
    split
    · obtain ⟨txs, h1, h2⟩ := ih w v
      refine ⟨txs, h1, fun tx htx => ?_⟩
      obtain ⟨c', hc', hpc⟩ := h2 tx htx
      exact ⟨c', List.mem_cons_of_mem _ hc', hpc⟩
    · split
      · exact ⟨stx, hs, hone⟩
      · split
        · split
          · exact hmore _ _ rfl
          · exact ⟨stx, hs, hone⟩
        · exact hmore _ _ rfl

theorem sided_args (order c : Order) (hopp : c.IsBid ≠ order.IsBid) :
    ∃ bid ask : Order, bid.IsBid = true ∧ ask.IsBid = false ∧
      ((bid = order ∧ ask = c) ∨ (ask = order ∧ bid = c)) ∧
      (if order.IsBid then (order.Hash, c.Hash) else (c.Hash, order.Hash)) =
        (bid.Hash, ask.Hash) := by
  cases ho : order.IsBid with
  | true =>
    refine ⟨order, c, ho, ?_, Or.inl ⟨rfl, rfl⟩, by simp⟩
    cases hc : c.IsBid with
    | true => exact absurd (hc.trans ho.symm) hopp
    | false => rfl
  | false =>
    refine ⟨c, order, ?_, ho, Or.inr ⟨rfl, rfl⟩, by simp⟩
    cases hc : c.IsBid with
    | true => rfl
    | false => exact absurd (hc.trans ho.symm) hopp

/-! ## The arguments of the match transaction: claims -/

/-- C11.  For every run of the candidate loop of `tryOrderMatching`: (1) every
call of `submitMatchedOrder` that the loop makes is for one of the candidates
and has the arguments (hash of the new order, hash of the candidate) when the
new order is a bid and (hash of the candidate, hash of the new order) when it
is not; (2) every transaction that the loop sends carries those two hashes, in
that order, as buy and sell order hash; (3) when every candidate is of the
side opposite to the new order, the first argument of every call and the buy
hash of every transaction is the hash of the bid among the two orders, the
second argument and the sell hash the hash of the ask.  The calls and
transactions of the loop are those after the ones made before it. -/
theorem C11_match_arguments (env : Env) (order : Order) (cands : List Order) (w : World)
    (volumeOfOrder : Int) :
    (w.submitCalls <+: (matchLoop env order cands w volumeOfOrder).world.submitCalls ∧
        ∀ p ∈ (matchLoop env order cands w volumeOfOrder).world.submitCalls.drop
            w.submitCalls.length,
          ∃ c ∈ cands, p = if order.IsBid then (order.Hash, c.Hash) else (c.Hash, order.Hash)) ∧
      (w.sent <+: (matchLoop env order cands w volumeOfOrder).world.sent ∧
        ∀ tx ∈ (matchLoop env order cands w volumeOfOrder).world.sent.drop w.sent.length,
          ∃ c ∈ cands, (tx.BuyOrderHash, tx.SellOrderHash) =
            if order.IsBid then (order.Hash, c.Hash) else (c.Hash, order.Hash)) ∧
      ((∀ c ∈ cands, c.IsBid ≠ order.IsBid) →
        (∀ p ∈ (matchLoop env order cands w volumeOfOrder).world.submitCalls.drop
            w.submitCalls.length,
          ∃ bid ask : Order, bid.IsBid = true ∧ ask.IsBid = false ∧
            ((bid = order ∧ ask ∈ cands) ∨ (ask = order ∧ bid ∈ cands)) ∧
            p = (bid.Hash, ask.Hash)) ∧
        (∀ tx ∈ (matchLoop env order cands w volumeOfOrder).world.sent.drop w.sent.length,
          ∃ bid ask : Order, bid.IsBid = true ∧ ask.IsBid = false ∧
            ((bid = order ∧ ask ∈ cands) ∨ (ask = order ∧ bid ∈ cands)) ∧
            tx.BuyOrderHash = bid.Hash ∧ tx.SellOrderHash = ask.Hash)) := by
  obtain ⟨calls, hc1, hc2⟩ := matchLoop_calls env order cands w volumeOfOrder
  obtain ⟨txs, ht1, ht2⟩ := matchLoop_txs env order cands w volumeOfOrder
  have hcd : (matchLoop env order cands w volumeOfOrder).world.submitCalls.drop
      w.submitCalls.length = calls := by
    rw [hc1, List.drop_left]
  have htd : (matchLoop env order cands w volumeOfOrder).world.sent.drop w.sent.length = txs := by
    rw [ht1, List.drop_left]
  rw [hcd, htd]
  refine ⟨⟨hc1 ▸ List.prefix_append _ _, hc2⟩, ⟨ht1 ▸ List.prefix_append _ _, ht2⟩, ?_⟩
  intro hopp
  constructor
  · intro p hp
    obtain ⟨c, hc, hpc⟩ := hc2 p hp
    obtain ⟨bid, ask, hb, ha, hwho, hargs⟩ := sided_args order c (hopp c hc)
    refine ⟨bid, ask, hb, ha, ?_, hpc.trans hargs⟩
    rcases hwho with ⟨h1, h2⟩ | ⟨h1, h2⟩
    · exact Or.inl ⟨h1, h2 ▸ hc⟩
    · exact Or.inr ⟨h1, h2 ▸ hc⟩
  · intro tx htx
    obtain ⟨c, hc, hpc⟩ := ht2 tx htx
    obtain ⟨bid, ask, hb, ha, hwho, hargs⟩ := sided_args order c (hopp c hc)
    have hpair := hpc.trans hargs
    refine ⟨bid, ask, hb, ha, ?_, congrArg Prod.fst hpair, congrArg Prod.snd hpair⟩
    rcases hwho with ⟨h1, h2⟩ | ⟨h1, h2⟩
    · exact Or.inl ⟨h1, h2 ▸ hc⟩
    · exact Or.inr ⟨h1, h2 ▸ hc⟩

/-- C11, witness: the new sell order 0xDD against the stored bid 0xEE; the
call is (0xEE, 0xDD), the hash of the bid first. -/
theorem C11_match_arguments_witness :
    (∀ c ∈ [sampleBidEE], c.IsBid ≠ sampleAsk8.IsBid) ∧
      ((∀ p ∈ (matchLoop sampleEnv sampleAsk8 [sampleBidEE] sampleMarket 8).world.submitCalls.drop
            sampleMarket.submitCalls.length,
          ∃ bid ask : Order, bid.IsBid = true ∧ ask.IsBid = false ∧
            ((bid = sampleAsk8 ∧ ask ∈ [sampleBidEE]) ∨
              (ask = sampleAsk8 ∧ bid ∈ [sampleBidEE])) ∧
            p = (bid.Hash, ask.Hash)) ∧
        (∀ tx ∈ (matchLoop sampleEnv sampleAsk8 [sampleBidEE] sampleMarket 8).world.sent.drop
            sampleMarket.sent.length,
          ∃ bid ask : Order, bid.IsBid = true ∧ ask.IsBid = false ∧
            ((bid = sampleAsk8 ∧ ask ∈ [sampleBidEE]) ∨
              (ask = sampleAsk8 ∧ bid ∈ [sampleBidEE])) ∧
            tx.BuyOrderHash = bid.Hash ∧ tx.SellOrderHash = ask.Hash)) ∧
      (matchLoop sampleEnv sampleAsk8 [sampleBidEE] sampleMarket 8).world.submitCalls =
        [(0xEE, 0xDD)] ∧
      (matchLoop sampleEnv sampleBid10 [sampleAskBB, sampleAskCC] sampleMarket
        10).world.submitCalls = [(0xAA, 0xBB), (0xAA, 0xCC)] :=
  have hopp : ∀ c ∈ [sampleBidEE], c.IsBid ≠ sampleAsk8.IsBid := fun c hc => by
    rw [List.mem_singleton.mp hc]
    decide
  ⟨hopp, (C11_match_arguments sampleEnv sampleAsk8 [sampleBidEE] sampleMarket 8).2.2 hopp,
    by decide, by decide⟩

/-! ## The bridge withdrawal: lemmas -/

theorem bridgeWithdrawCallback_found (env : Env) (w : World) (vLog : Log)
    (ev : BridgeWithdrawEvent) (r : WithdrawMeta)
    (hdec : env.bridgeABI.Withdraw vLog.Data = .ok ev)
    (hr : withdrawOf w.store ev.TransactionHash = some r) :
    (bridgeWithdrawCallback env w vLog).fatal = none ∧
      (bridgeWithdrawCallback env w vLog).world.store =
        ({ r with Status := WithdrawStatus.PROCESSED } : WithdrawMeta).UpdateStatus w.store := by
  have hget : ({ NewWithdrawMeta with TxHash := ev.TransactionHash } : WithdrawMeta).Get
      (Println (Println w "--------------------")
        "Received `Withdraw` event from Home Network").store = .ok r := by
    unfold WithdrawMeta.Get
    unfold withdrawOf at hr
    simp only [Println_store, hr]
  unfold bridgeWithdrawCallback
  simp only [hdec, hget]
  refine ⟨?_, ?_⟩ <;> first | rfl | trivial

/-! ## The bridge withdrawal: claims -/

/-- C12.  When the data of a bridge log decode as a `Withdraw` whose transaction
hash has a stored withdrawal record `r`, whatever the status of `r` is
(REQUESTED included), the handler returns without alarm and the record stored
under that hash is `r` with the status PROCESSED: recipient, token and amount
are those of `r`.  The record under every other hash is as before, every row
of the withdrawal table under another hash is unchanged and no row is added
or removed, and the wallet, order, trade and signature tables are as before. -/
theorem C12_bridge_withdraw_frame (env : Env) (w : World) (vLog : Log)
    (ev : BridgeWithdrawEvent) (r : WithdrawMeta)
    (hdec : env.bridgeABI.Withdraw vLog.Data = .ok ev)
    (hr : withdrawOf w.store ev.TransactionHash = some r) :
    (bridgeWithdrawCallback env w vLog).fatal = none ∧
      withdrawOf (bridgeWithdrawCallback env w vLog).world.store ev.TransactionHash =
        some { TxHash := r.TxHash, Recipient := r.Recipient, Token := r.Token
               Amount := r.Amount, Status := .PROCESSED } ∧
      (∀ k : common.Hash, k ≠ ev.TransactionHash →
        withdrawOf (bridgeWithdrawCallback env w vLog).world.store k = withdrawOf w.store k) ∧
      (bridgeWithdrawCallback env w vLog).world.store.withdrawMetas =
        w.store.withdrawMetas.map (fun x =>
          if x.TxHash = ev.TransactionHash then { x with Status := .PROCESSED } else x) ∧
      (bridgeWithdrawCallback env w vLog).world.store.wallets = w.store.wallets ∧
      (bridgeWithdrawCallback env w vLog).world.store.orders = w.store.orders ∧
      (bridgeWithdrawCallback env w vLog).world.store.trades = w.store.trades ∧
      (bridgeWithdrawCallback env w vLog).world.store.withdrawSigns = w.store.withdrawSigns := by
  obtain ⟨hf, hs⟩ := bridgeWithdrawCallback_found env w vLog ev r hdec hr
  have hk : r.TxHash = ev.TransactionHash := withdrawOf_key hr
  refine ⟨hf, ?_, ?_, ?_, ?_, ?_, ?_, ?_⟩
  · rw [hs, withdrawOf_UpdateStatus, hr]
    show some (if r.TxHash = r.TxHash ∧ r.Status.rank ≤ WithdrawStatus.PROCESSED.rank then _
      else r) = _
    rw [if_pos ⟨rfl, rank_le_PROCESSED _⟩]
  · intro k hne
    rw [hs, withdrawOf_UpdateStatus]
    cases hx : withdrawOf w.store k with
    | none => rfl
    | some x =>
      have hxk : x.TxHash = k := withdrawOf_key hx
      show some (if x.TxHash = r.TxHash ∧ x.Status.rank ≤ WithdrawStatus.PROCESSED.rank then _
        else x) = some x
      rw [if_neg (fun h => hne (by rw [← hxk, h.1, hk]))]
  · rw [hs]
    show w.store.withdrawMetas.map _ = _
    apply List.map_congr_left
    intro x _
    by_cases hx : x.TxHash = ev.TransactionHash
    · rw [if_pos hx]
      show (if x.TxHash = r.TxHash ∧ x.Status.rank ≤ WithdrawStatus.PROCESSED.rank then _
        else x) = _
      rw [if_pos ⟨hx.trans hk.symm, rank_le_PROCESSED _⟩]
    · rw [if_neg hx]
      show (if x.TxHash = r.TxHash ∧ x.Status.rank ≤ WithdrawStatus.PROCESSED.rank then _
        else x) = _
      rw [if_neg (fun h => hx (h.1.trans hk))]
  · rw [hs]; rfl
  · rw [hs]; rfl
  · rw [hs]; rfl
  · rw [hs]; rfl

/-- C12, witness: the bridge `Withdraw` naming transaction 0x57 on the store
that holds the transactions 0x57 and 0x58 at REQUESTED; 0x57 goes to
PROCESSED without having been SIGNED, 0x58 is as before. -/
theorem C12_bridge_withdraw_frame_witness :
    sampleEnv.bridgeABI.Withdraw [5, 6, 50, 0x57] = .ok sampleBridgeEvent ∧
      withdrawOf sampleTwoRequests.store sampleBridgeEvent.TransactionHash =
        some sampleRequest57 ∧
      (bridgeWithdrawCallback sampleEnv sampleTwoRequests { Data := [5, 6, 50, 0x57] }).fatal =
        none ∧
      withdrawOf
          (bridgeWithdrawCallback sampleEnv sampleTwoRequests
            { Data := [5, 6, 50, 0x57] }).world.store sampleBridgeEvent.TransactionHash =
        some { TxHash := sampleRequest57.TxHash, Recipient := sampleRequest57.Recipient
               Token := sampleRequest57.Token, Amount := sampleRequest57.Amount
               Status := .PROCESSED } ∧
      withdrawOf
          (bridgeWithdrawCallback sampleEnv sampleTwoRequests
            { Data := [5, 6, 50, 0x57] }).world.store 0x58 =
        withdrawOf sampleTwoRequests.store 0x58 ∧
      statusOf sampleTwoRequests.store 0x58 = some .REQUESTED :=
  ⟨rfl, by decide,
    (C12_bridge_withdraw_frame sampleEnv sampleTwoRequests { Data := [5, 6, 50, 0x57] }
      sampleBridgeEvent sampleRequest57 rfl (by decide)).1,
    (C12_bridge_withdraw_frame sampleEnv sampleTwoRequests { Data := [5, 6, 50, 0x57] }
      sampleBridgeEvent sampleRequest57 rfl (by decide)).2.1,
    (C12_bridge_withdraw_frame sampleEnv sampleTwoRequests { Data := [5, 6, 50, 0x57] }
      sampleBridgeEvent sampleRequest57 rfl (by decide)).2.2.1 0x58 (by decide),
    by decide⟩

end Relayer
